import Mathlib

set_option allowUnsafeReducibility true

attribute [local semireducible] Rat.add Rat.sub Rat.mul Rat.div Rat.neg Rat.inv Rat.ofScientific Rat.blt Rat.normalize

/-!
Verification development for the gocnc G-code pipeline.

The Go sources are shallowly embedded: float64 becomes rat (all float
constants in the relevant paths are decimal literals, represented exactly),
Go int becomes int (or nat where the source only ever holds non-negative
values), panics recovered into errors become Except, and the transcendental
helpers of the math package (sqrt, atan2, acos, cos, sin, Pi) are collected
in an Analytic parameter record, since their float approximations are
opaque rationals from the point of view of the control flow proved about
here.
-/

namespace Gocnc

/-- Decidable equality for Except results, used to evaluate the embedding on
concrete inputs. -/
instance exceptDecEq {ε α : Type} [DecidableEq ε] [DecidableEq α] :
    DecidableEq (Except ε α)
  | .ok a, .ok b =>
    if h : a = b then .isTrue (by rw [h]) else .isFalse (by simp [h])
  | .ok _, .error _ => .isFalse (by simp)
  | .error _, .ok _ => .isFalse (by simp)
  | .error e, .error f =>
    if h : e = f then .isTrue (by rw [h]) else .isFalse (by simp [h])

/-! ## gcode package: words, nodes, blocks, documents (gcode/parse.go) -/

/-- A word: an address letter and a numeric command (gcode type Word). -/
structure Word where
  address : Char
  command : ℚ
deriving DecidableEq

/-- A node of a block: word, comment or file marker (gcode type Node). -/
inductive Node where
  | word : Word → Node
  | comment : String → Bool → Node
  | filemarker : Node
deriving DecidableEq

/-- A block: one input line worth of nodes plus the block-delete flag. -/
structure Block where
  nodes : List Node := []
  blockDelete : Bool := false
deriving DecidableEq

/-- A document: a sequence of blocks. -/
structure Document where
  blocks : List Block := []
deriving DecidableEq

/-- Block.GetWord: the command of the word with the given address; none when
the address is absent or occurs more than once (the Go version returns an
error in both cases and no caller inspects the message). -/
def Block.getWord (b : Block) (address : Char) : Option ℚ :=
  go b.nodes none
where
  go : List Node → Option ℚ → Option ℚ
    | [], acc => acc
    | .word w :: rest, acc =>
        if w.address = address then
          match acc with
          | some _ => none
          | none => go rest (some w.command)
        else go rest acc
    | _ :: rest, acc => go rest acc

/-- Block.GetWordDefault. -/
def Block.getWordDefault (b : Block) (address : Char) (d : ℚ) : ℚ :=
  (b.getWord address).getD d

/-- Block.IncludesOneOf: true when GetWord succeeds for one of the addresses. -/
def Block.includesOneOf (b : Block) (addresses : List Char) : Bool :=
  addresses.any fun a => (b.getWord a).isSome

/-- Modelled from the spec: Block.Remove is called by the interpreter but not
defined in the sources at hand; per the spec the interpreter consumes the
modal word it handled, so the first node equal to the given word is removed. -/
def Block.removeWord (b : Block) (w : Word) : Block :=
  { b with nodes := go b.nodes }
where
  go : List Node → List Node
    | [] => []
    | n :: rest => if n = Node.word w then rest else n :: go rest

/-- Modelled from the spec: Block.RemoveAddress is called by the interpreter
but not defined in the sources at hand; per the spec (remove-address
consumes entries) all words carrying one of the addresses are removed. -/
def Block.removeAddress (b : Block) (addresses : List Char) : Block :=
  { b with nodes := b.nodes.filter fun n =>
      match n with
      | .word w => !(addresses.contains w.address)
      | _ => true }

/-! ## gcode modal table (gcode/modal.go) -/

/-- The static modal-group table. -/
def groupWords : String → List Word
  | "nonModalGroup" =>
      [⟨'G', 4⟩, ⟨'G', 10⟩, ⟨'G', 28⟩, ⟨'G', 30⟩, ⟨'G', 53⟩,
       ⟨'G', 92⟩, ⟨'G', 92.1⟩, ⟨'G', 92.2⟩, ⟨'G', 92.3⟩]
  | "motionGroup" =>
      [⟨'G', 0⟩, ⟨'G', 1⟩, ⟨'G', 2⟩, ⟨'G', 3⟩, ⟨'G', 33⟩,
       ⟨'G', 38.2⟩, ⟨'G', 38.3⟩, ⟨'G', 38.4⟩, ⟨'G', 38.5⟩,
       ⟨'G', 73⟩, ⟨'G', 76⟩, ⟨'G', 80⟩, ⟨'G', 81⟩, ⟨'G', 82⟩,
       ⟨'G', 83⟩, ⟨'G', 84⟩, ⟨'G', 85⟩, ⟨'G', 86⟩, ⟨'G', 87⟩,
       ⟨'G', 88⟩, ⟨'G', 89⟩]
  | "planeSelectionGroup" =>
      [⟨'G', 17⟩, ⟨'G', 18⟩, ⟨'G', 19⟩, ⟨'G', 17.1⟩, ⟨'G', 18.1⟩, ⟨'G', 19.1⟩]
  | "distanceModeGroup" => [⟨'G', 90⟩, ⟨'G', 91⟩]
  | "arcDistanceModeGroup" => [⟨'G', 90.1⟩, ⟨'G', 91.1⟩]
  | "feedRateModeGroup" => [⟨'G', 93⟩, ⟨'G', 94⟩, ⟨'G', 95⟩]
  | "unitsGroup" => [⟨'G', 20⟩, ⟨'G', 21⟩]
  | "cutterCompensationModeGroup" =>
      [⟨'G', 40⟩, ⟨'G', 41⟩, ⟨'G', 41.1⟩, ⟨'G', 42⟩, ⟨'G', 42.1⟩]
  | "toolLengthGroup" => [⟨'G', 43⟩, ⟨'G', 43.1⟩, ⟨'G', 49⟩]
  | "cannedCyclesModeGroup" => [⟨'G', 98⟩, ⟨'G', 99⟩]
  | "coordinateSystemGroup" =>
      [⟨'G', 54⟩, ⟨'G', 55⟩, ⟨'G', 56⟩, ⟨'G', 57⟩, ⟨'G', 58⟩,
       ⟨'G', 59⟩, ⟨'G', 59.1⟩, ⟨'G', 59.2⟩, ⟨'G', 59.3⟩]
  | "controlModeGroup" => [⟨'G', 61⟩, ⟨'G', 61.1⟩, ⟨'G', 64⟩]
  | "spindleModeGroup" => [⟨'G', 96⟩, ⟨'G', 97⟩]
  | "latheDiameterModeGroup" => [⟨'G', 7⟩, ⟨'G', 8⟩]
  | "stoppingGroup" => [⟨'M', 0⟩, ⟨'M', 1⟩, ⟨'M', 2⟩, ⟨'M', 30⟩, ⟨'M', 60⟩]
  | "toolChangeGroup" => [⟨'M', 6⟩, ⟨'M', 61⟩]
  | "spindleGroup" => [⟨'M', 3⟩, ⟨'M', 4⟩, ⟨'M', 5⟩]
  | "coolantGroup" => [⟨'M', 7⟩, ⟨'M', 8⟩, ⟨'M', 9⟩]
  | "overrideGroup" =>
      [⟨'M', 48⟩, ⟨'M', 49⟩, ⟨'M', 50⟩, ⟨'M', 51⟩, ⟨'M', 52⟩, ⟨'M', 53⟩]
  | _ => []

/-- sliceOfWords.isInGroup. -/
def isInGroup (g : List Word) (w : Word) : Bool :=
  g.any fun x => x == w

/-- Block.GetModalGroup: scans the block for words of the group; errors when a
second one is found, otherwise yields the single member present, if any. -/
def Block.getModalGroup (b : Block) (t : String) : Except String (Option Word) :=
  go (groupWords t) b.nodes none
where
  go (group : List Word) : List Node → Option Word → Except String (Option Word)
    | [], acc => .ok acc
    | .word w :: rest, acc =>
        if isInGroup group w then
          match acc with
          | some _ => .error "Multiple gcodes from same modal group"
          | none => go group rest (some w)
        else go group rest acc
    | _ :: rest, acc => go group rest acc

/-! ## vm package: state, position, machine (vm/main.go) -/

/-- Move-mode constants (Go iota). -/
def MoveModeNone : ℤ := 0

def MoveModeRapid : ℤ := 1

def MoveModeLinear : ℤ := 2

def MoveModeCWArc : ℤ := 3

def MoveModeCCWArc : ℤ := 4

def MoveModeDwell : ℤ := 5

/-- Plane-selection constants. -/
def PlaneXY : ℤ := 0

def PlaneXZ : ℤ := 1

def PlaneYZ : ℤ := 2

/-- Feed-mode constants. -/
def FeedModeUnitsMin : ℤ := 0

def FeedModeUnitsRev : ℤ := 1

def FeedModeInvTime : ℤ := 2

/-- Cutter-compensation constants. -/
def CutCompModeNone : ℤ := 0

def CutCompModeOuter : ℤ := 1

def CutCompModeInner : ℤ := 2

/-- The interpreter move state (vm type State). -/
structure State where
  feedrate : ℚ := 0
  spindleSpeed : ℚ := 0
  moveMode : ℤ := 0
  feedMode : ℤ := 0
  spindleEnabled : Bool := false
  spindleClockwise : Bool := false
  floodCoolant : Bool := false
  mistCoolant : Bool := false
  toolIndex : ℤ := 0
  toolLengthIndex : ℤ := 0
  cutterCompensation : ℤ := 0
  dwellTime : ℚ := 0
deriving DecidableEq

/-- The Go zero value of State (what Position\x7b\x7d carries). -/
def State.zero : State := {}

/-- A position: a state snapshot plus coordinates (vm type Position). -/
structure Position where
  state : State := {}
  x : ℚ := 0
  y : ℚ := 0
  z : ℚ := 0
deriving DecidableEq

/-- The Go zero value of Position: origin with zero state. -/
def Position.zero : Position := {}

/-- A three-component vector (package vector, type Vector). -/
structure Vec3 where
  x : ℚ := 0
  y : ℚ := 0
  z : ℚ := 0
deriving DecidableEq

/-- Vector.Sum. -/
def Vec3.sum (a b : Vec3) : Vec3 := ⟨a.x + b.x, a.y + b.y, a.z + b.z⟩

/-- Vector.Diff. -/
def Vec3.diff (a b : Vec3) : Vec3 := ⟨a.x - b.x, a.y - b.y, a.z - b.z⟩

/-- Vector.Divide. -/
def Vec3.divide (a : Vec3) (d : ℚ) : Vec3 := ⟨a.x / d, a.y / d, a.z / d⟩

/-- Position.Vector. -/
def Position.vec (p : Position) : Vec3 := ⟨p.x, p.y, p.z⟩

/-- The coordinate-system model (vm/coordinates.go). -/
structure CoordinateSystem where
  coordinateSystems : List Vec3 := []
  offset : Vec3 := {}
  offsetEnabled : Bool := false
  currentCoordinateSystem : ℕ := 0
  override : Bool := false
deriving DecidableEq

/-- expandIfNecessary: grow the work-offset table until index s exists. -/
def CoordinateSystem.expandIfNecessary (c : CoordinateSystem) (s : ℕ) :
    CoordinateSystem :=
  { c with coordinateSystems :=
      c.coordinateSystems ++
        List.replicate (s + 1 - c.coordinateSystems.length) {} }

/-- SelectCoordinateSystem. -/
def CoordinateSystem.selectCoordinateSystem (c : CoordinateSystem) (s : ℕ) :
    CoordinateSystem :=
  { c.expandIfNecessary s with currentCoordinateSystem := s }

/-- SetCoordinateSystem; the Go code indexes the slice with an int computed
from a G10 P word, so a negative index is modelled as the (recovered) panic. -/
def CoordinateSystem.setCoordinateSystem (c : CoordinateSystem)
    (x y z : ℚ) (s : ℤ) : Except String CoordinateSystem :=
  if s < 0 then .error "runtime error: index out of range"
  else
    let c := c.expandIfNecessary s.toNat
    .ok { c with coordinateSystems :=
            c.coordinateSystems.set s.toNat ⟨x, y, z⟩ }

/-- SetOffset. -/
def CoordinateSystem.setOffset (c : CoordinateSystem) (x y z : ℚ) :
    CoordinateSystem :=
  { c with offset := ⟨x, y, z⟩ }

/-- EnableOffset. -/
def CoordinateSystem.enableOffset (c : CoordinateSystem) : CoordinateSystem :=
  { c with offsetEnabled := true }

/-- DisableOffset. -/
def CoordinateSystem.disableOffset (c : CoordinateSystem) : CoordinateSystem :=
  { c with offsetEnabled := false }

/-- EraseOffset. -/
def CoordinateSystem.eraseOffset (c : CoordinateSystem) : CoordinateSystem :=
  { c with offset := {}, offsetEnabled := false }

/-- ApplyCoordinateSystem: add the active work offset plus the G92 offset when
enabled, unless the per-block override is active. -/
def CoordinateSystem.applyCoordinateSystem (c : CoordinateSystem)
    (x y z : ℚ) : ℚ × ℚ × ℚ :=
  if c.override then (x, y, z)
  else
    let c := c.expandIfNecessary c.currentCoordinateSystem
    let v := c.coordinateSystems.getD c.currentCoordinateSystem {}
    let v := if c.offsetEnabled then v.sum c.offset else v
    (x + v.x, y + v.y, z + v.z)

/-- Override. -/
def CoordinateSystem.setOverride (c : CoordinateSystem) : CoordinateSystem :=
  { c with override := true }

/-- CancelOverride. -/
def CoordinateSystem.cancelOverride (c : CoordinateSystem) : CoordinateSystem :=
  { c with override := false }

/-- OverrideActive. -/
def CoordinateSystem.overrideActive (c : CoordinateSystem) : Bool :=
  c.override

/-- Machine state and settings (vm type Machine). -/
structure Machine where
  state : State := {}
  positions : List Position := []
  completed : Bool := false
  imperial : Bool := false
  absoluteMove : Bool := false
  absoluteArc : Bool := false
  movePlane : ℤ := 0
  nextTool : ℤ := 0
  coordinateSystem : CoordinateSystem := {}
  storedPos1 : Vec3 := {}
  storedPos2 : Vec3 := {}
  maxArcDeviation : ℚ := 0
  minArcLineLength : ℚ := 0
  ignoreBlockDelete : Bool := false
  allowRemainingWords : Bool := false
deriving DecidableEq

/-- The Go zero value of Machine, as produced by declaring a vm.Machine. -/
def Machine.zero : Machine := {}

/-- Init: initialize the VM to sane default values (appends the origin
position and resets the listed fields, leaving the rest untouched). -/
def Machine.initVM (m : Machine) : Machine :=
  { m with
      positions := m.positions ++ [Position.zero],
      imperial := false,
      absoluteMove := true,
      absoluteArc := false,
      movePlane := PlaneXY,
      maxArcDeviation := 0.002,
      minArcLineLength := 0.01,
      nextTool := -1,
      ignoreBlockDelete := false }

/-! ## math helpers: Go float conversions and the analytic oracle -/

/-- Go int(x) on a non-negative-denominator rational: truncation toward zero. -/
def ratTrunc (q : ℚ) : ℤ :=
  if 0 ≤ q.num then (q.num.natAbs / q.den : ℕ) else -((q.num.natAbs / q.den : ℕ) : ℤ)

/-- Floor of a rational. -/
def ratFloor (q : ℚ) : ℤ := Int.ediv q.num q.den

/-- math.Ceil of a rational. -/
def ratCeil (q : ℚ) : ℤ := -ratFloor (-q)

/-- The transcendental float helpers used by the arc code. The Go program
computes with float64 approximations; each such value is itself a rational,
so the embedding takes the whole family as a parameter record and proves its
control-flow properties for every instantiation. -/
structure Analytic where
  sqrt : ℚ → ℚ
  atan2 : ℚ → ℚ → ℚ
  acos : ℚ → ℚ
  cos : ℚ → ℚ
  sin : ℚ → ℚ
  pi : ℚ

/-- A trivial oracle instantiation, usable whenever the computation at hand
never consults the oracle (no arcs involved). -/
def A0 : Analytic :=
  { sqrt := fun _ => 0, atan2 := fun _ _ => 0, acos := fun _ => 0,
    cos := fun _ => 0, sin := fun _ => 0, pi := 0 }

/-! ## vm positioning (vm/positioning.go) -/

/-- curPos: the top of the position stack. The Go code indexes
Positions[len-1] and would panic on an empty stack; every call site runs
after Init, which guarantees a non-empty stack, so the default value is
never consulted. -/
def Machine.curPos (m : Machine) : Position :=
  m.positions.getLast?.getD Position.zero

/-- move: append a position carrying the current state snapshot. -/
def Machine.move (m : Machine) (newX newY newZ : ℚ) : Machine :=
  { m with positions := m.positions ++ [⟨m.state, newX, newY, newZ⟩] }

/-- calcPos: absolute target coordinates for a statement, including the
optional I, J, K parameters. -/
def Machine.calcPos (m : Machine) (stmt : Block) :
    ℚ × ℚ × ℚ × ℚ × ℚ × ℚ :=
  let pos := m.curPos
  let newX := match stmt.getWord 'X' with
    | none => pos.x
    | some v => if m.imperial then v * 25.4 else v
  let newY := match stmt.getWord 'Y' with
    | none => pos.y
    | some v => if m.imperial then v * 25.4 else v
  let newZ := match stmt.getWord 'Z' with
    | none => pos.z
    | some v => if m.imperial then v * 25.4 else v
  let newI := stmt.getWordDefault 'I' 0
  let newJ := stmt.getWordDefault 'J' 0
  let newK := stmt.getWordDefault 'K' 0
  let newI := if m.imperial then newI * 25.4 else newI
  let newJ := if m.imperial then newJ * 25.4 else newJ
  let newK := if m.imperial then newK * 25.4 else newK
  let newX := if !m.absoluteMove then newX + pos.x else newX
  let newY := if !m.absoluteMove then newY + pos.y else newY
  let newZ := if !m.absoluteMove then newZ + pos.z else newZ
  let newI := if !m.absoluteArc then newI + pos.x else newI
  let newJ := if !m.absoluteArc then newJ + pos.y else newJ
  let newK := if !m.absoluteArc then newK + pos.z else newK
  (newX, newY, newZ, newI, newJ, newK)

/-- Norm of a vector, through the analytic oracle. -/
def normWith (A : Analytic) (v : Vec3) : ℚ :=
  A.sqrt (v.x * v.x + v.y * v.y + v.z * v.z)

/-- The in-plane geometry of vm.arc from the radius checks through the
tessellation step count: returns theta1, angleDiff, radius1 and the final
clamped steps value. Factored out of arc so that the step computation can
be evaluated on its own. -/
def arcCore (A : Analytic) (maxArcDeviation minArcLineLength : ℚ)
    (s1 s2 s3 e1 e2 e3 c1 c2 P : ℚ) (clockwise : Bool) :
    Except String (ℚ × ℚ × ℚ × ℤ) :=
  let radius1 := A.sqrt ((c1 - s1) * (c1 - s1) + (c2 - s2) * (c2 - s2))
  let radius2 := A.sqrt ((c1 - e1) * (c1 - e1) + (c2 - e2) * (c2 - e2))
  if radius1 = 0 ∨ radius2 = 0 then .error "Invalid arc statement"
  else
    let deviation := |(radius2 - radius1) / radius1| * 100
    let devCheck : Except String Unit :=
      if deviation > 0.6 then
        let e : Vec3 := ⟨e1, e2, e3⟩
        let mp : Vec3 := ⟨e1 - |c1 - s1|, e2 - |c2 - s2|, e3⟩
        let x := normWith A (e.diff mp)
        if x > 0.1 then .error "Radius deviation" else .ok ()
      else .ok ()
    match devCheck with
    | .error e => .error e
    | .ok _ =>
      let theta1 := A.atan2 (s2 - c2) (s1 - c1)
      let theta2 := A.atan2 (e2 - c2) (e1 - c1)
      let angleDiff := theta2 - theta1
      let angleDiff :=
        if angleDiff < 0 ∧ !clockwise then angleDiff + 2 * A.pi
        else if angleDiff > 0 ∧ clockwise then angleDiff - 2 * A.pi
        else angleDiff
      let angleDiff :=
        if clockwise then angleDiff - P * 2 * A.pi
        else angleDiff + P * 2 * A.pi
      let steps : ℤ :=
        if maxArcDeviation < radius1 then
          ratCeil |angleDiff / (2 * A.acos (1 - maxArcDeviation / radius1))|
        else 1
      let arcLen := |angleDiff| *
        A.sqrt (radius1 * radius1 + ((e3 - s3) / angleDiff) * ((e3 - s3) / angleDiff))
      let steps2 := ratTrunc (arcLen / minArcLineLength)
      let steps := if steps > steps2 then steps2 else steps
      .ok (theta1, angleDiff, radius1, steps)

/-- The per-plane add closure of vm.arc, keyed by the plane id it was built
under: the in-plane coordinates are permuted back into machine axes before
the move is appended (XY: x y z; XZ: y z x; YZ: z x y; only valid plane ids
reach it, any other value behaving as XY). -/
def planeMove (pid : ℤ) (mm : Machine) (x y z : ℚ) : Machine :=
  if pid = PlaneXZ then mm.move y z x
  else if pid = PlaneYZ then mm.move z x y
  else mm.move x y z

/-- vm.arc: tessellate an arc into linear moves. The move mode is forced to
Linear for the emitted positions and restored afterwards. When steps ends up
0 the Go code divides by float64(0); the rational embedding makes those
divisions total with value 0, which only affects the emitted coordinates,
never the emitted move modes or the control flow. -/
def Machine.arc (A : Analytic) (m : Machine)
    (endX endY endZ endI endJ endK P : ℚ) : Except String Machine :=
  let startPos := m.curPos
  let clockwise := m.state.moveMode = MoveModeCWArc
  let oldState := m.state.moveMode
  let m := { m with state := { m.state with moveMode := MoveModeLinear } }
  let plane : Except String ((ℚ × ℚ × ℚ × ℚ × ℚ × ℚ × ℚ × ℚ) × ℤ) :=
    if m.movePlane = PlaneXY then
      .ok ((startPos.x, startPos.y, startPos.z, endX, endY, endZ, endI, endJ),
        PlaneXY)
    else if m.movePlane = PlaneXZ then
      .ok ((startPos.z, startPos.x, startPos.y, endZ, endX, endY, endK, endI),
        PlaneXZ)
    else if m.movePlane = PlaneYZ then
      .ok ((startPos.y, startPos.z, startPos.x, endY, endZ, endX, endJ, endK),
        PlaneYZ)
    else .error "invalid move plane"
  match plane with
  | .error e => .error e
  | .ok ((s1, s2, s3, e1, e2, e3, c1, c2), pid) =>
    match arcCore A m.maxArcDeviation m.minArcLineLength
        s1 s2 s3 e1 e2 e3 c1 c2 P clockwise with
    | .error e => .error e
    | .ok (theta1, angleDiff, radius1, steps) =>
      let idxs := if steps < 0 then [] else List.range (steps.toNat + 1)
      let m := idxs.foldl (fun (mm : Machine) (i : ℕ) =>
        let angle := theta1 + angleDiff / (steps : ℚ) * (i : ℚ)
        let a1 := c1 + radius1 * A.cos angle
        let a2 := c2 + radius1 * A.sin angle
        let a3 := s3 + (e3 - s3) / (steps : ℚ) * (i : ℚ)
        planeMove pid mm a1 a2 a3) m
      let m := planeMove pid m e1 e2 e3
      .ok { m with state := { m.state with moveMode := oldState } }

/-- Modelled from the spec: vm.dwell is called by the interpreter but not
defined in the sources at hand; per the spec a Position with MoveMode Dwell
is appended, preserving the current coordinates and carrying the dwell time,
after which the prior move mode is restored (as the spec prescribes for the
other temporary-move-mode non-modals). -/
def Machine.dwell (m : Machine) (seconds : ℚ) : Machine :=
  let oldMode := m.state.moveMode
  let m := { m with state :=
    { m.state with moveMode := MoveModeDwell, dwellTime := seconds } }
  let pos := m.curPos
  let m := m.move pos.x pos.y pos.z
  { m with state := { m.state with moveMode := oldMode } }

/-- Modelled from the spec: vm.axesToMetric is called by the interpreter but
not defined in the sources at hand; per the spec (coordinates converted to
mm) imperial inputs are scaled by 25.4. -/
def Machine.axesToMetric (m : Machine) (x y z : ℚ) : ℚ × ℚ × ℚ :=
  if m.imperial then (x * 25.4, y * 25.4, z * 25.4) else (x, y, z)

/-! ## vm dispatch (vm/main.go) -/

/-- lineNumber: consume and ignore an N word. -/
def lineNumber (m : Machine) (b : Block) : Except String (Machine × Block) :=
  .ok (m, if (b.getWord 'N').isSome then b.removeAddress ['N'] else b)

/-- programName: consume and ignore an O word. -/
def programName (m : Machine) (b : Block) : Except String (Machine × Block) :=
  .ok (m, if (b.getWord 'O').isSome then b.removeAddress ['O'] else b)

/-- feedRateMode: G93/G94/G95; a mode change clears the feedrate. -/
def feedRateMode (m : Machine) (b : Block) : Except String (Machine × Block) :=
  match b.getModalGroup "feedRateModeGroup" with
  | .error e => .error e
  | .ok none => .ok (m, b)
  | .ok (some w) =>
    if w.address ≠ 'G' then .error "Unknown command from group feedRateModeGroup"
    else
      let oldMode := m.state.feedMode
      match (if w.command = 93 then some FeedModeInvTime
             else if w.command = 94 then some FeedModeUnitsMin
             else if w.command = 95 then some FeedModeUnitsRev
             else none) with
      | none => .error "Unknown command from group feedRateModeGroup"
      | some fm =>
        let m := { m with state := { m.state with feedMode := fm } }
        let m := if m.state.feedMode ≠ oldMode then
            { m with state := { m.state with feedrate := 0 } }
          else m
        .ok (m, b.removeWord w)

/-- feedRate: an F word sets the feedrate (inch-converted); without one, the
feedrate is poisoned to -1 under inverse-time feed mode. -/
def feedRate (m : Machine) (b : Block) : Except String (Machine × Block) :=
  match b.getWord 'F' with
  | some val =>
    let val := if m.imperial then val * 25.4 else val
    .ok ({ m with state := { m.state with feedrate := val } },
      b.removeAddress ['F'])
  | none =>
    if m.state.feedMode = FeedModeInvTime then
      .ok ({ m with state := { m.state with feedrate := -1 } }, b)
    else .ok (m, b)

/-- spindleSpeed: an S word sets the spindle speed. -/
def spindleSpeed (m : Machine) (b : Block) : Except String (Machine × Block) :=
  match b.getWord 'S' with
  | some val =>
    .ok ({ m with state := { m.state with spindleSpeed := val } },
      b.removeAddress ['S'])
  | none => .ok (m, b)

/-- nextTool: a T word records the next tool index. -/
def nextTool (m : Machine) (b : Block) : Except String (Machine × Block) :=
  match b.getWord 'T' with
  | some val => .ok ({ m with nextTool := ratTrunc val }, b.removeAddress ['T'])
  | none => .ok (m, b)

/-- toolChange: M6 copies nextTool into the state tool index; a tool change
without a defined tool is a hard error. -/
def toolChange (m : Machine) (b : Block) : Except String (Machine × Block) :=
  match b.getModalGroup "toolChangeGroup" with
  | .error e => .error e
  | .ok none => .ok (m, b)
  | .ok (some w) =>
    if w.address ≠ 'M' then .error "Unknown command from group toolChangeGroup"
    else if w.command = 6 then
      if m.nextTool = -1 then .error "Toolchange attempted without a defined tool"
      else
        .ok ({ m with state := { m.state with toolIndex := m.nextTool } },
          b.removeWord w)
    else .error "Unknown command from group toolChangeGroup"

/-- setSpindle: M3/M4/M5. -/
def setSpindle (m : Machine) (b : Block) : Except String (Machine × Block) :=
  match b.getModalGroup "spindleGroup" with
  | .error e => .error e
  | .ok none => .ok (m, b)
  | .ok (some w) =>
    if w.address ≠ 'M' then .error "Unknown command from group spindleGroup"
    else if w.command = 3 then
      .ok ({ m with state :=
        { m.state with spindleEnabled := true, spindleClockwise := true } },
        b.removeWord w)
    else if w.command = 4 then
      .ok ({ m with state :=
        { m.state with spindleEnabled := true, spindleClockwise := false } },
        b.removeWord w)
    else if w.command = 5 then
      .ok ({ m with state := { m.state with spindleEnabled := false } },
        b.removeWord w)
    else .error "Unknown command from group spindleGroup"

/-- setCoolant: M7/M8/M9. -/
def setCoolant (m : Machine) (b : Block) : Except String (Machine × Block) :=
  match b.getModalGroup "coolantGroup" with
  | .error e => .error e
  | .ok none => .ok (m, b)
  | .ok (some w) =>
    if w.address ≠ 'M' then .error "Unknown command from group coolantGroup"
    else if w.command = 7 then
      .ok ({ m with state := { m.state with mistCoolant := true } }, b.removeWord w)
    else if w.command = 8 then
      .ok ({ m with state := { m.state with floodCoolant := true } }, b.removeWord w)
    else if w.command = 9 then
      .ok ({ m with state :=
        { m.state with mistCoolant := false, floodCoolant := false } },
        b.removeWord w)
    else .error "Unknown command from group coolantGroup"

/-- setPolarMode: G15 is accepted as a no-op, G16 is rejected. -/
def setPolarMode (m : Machine) (b : Block) : Except String (Machine × Block) :=
  match b.getModalGroup "polarModeGroup" with
  | .error e => .error e
  | .ok none => .ok (m, b)
  | .ok (some w) =>
    if w.address ≠ 'G' then .error "Unknown command from group polarModeGroup"
    else if w.command = 15 then .ok (m, b.removeWord w)
    else if w.command = 16 then .error "polar mode not supported"
    else .error "Unknown command from group polarModeGroup"

/-- setPlane: G17/G18/G19. -/
def setPlane (m : Machine) (b : Block) : Except String (Machine × Block) :=
  match b.getModalGroup "planeSelectionGroup" with
  | .error e => .error e
  | .ok none => .ok (m, b)
  | .ok (some w) =>
    if w.address ≠ 'G' then .error "Unknown command from group planeSelectionGroup"
    else if w.command = 17 then .ok ({ m with movePlane := PlaneXY }, b.removeWord w)
    else if w.command = 18 then .ok ({ m with movePlane := PlaneXZ }, b.removeWord w)
    else if w.command = 19 then .ok ({ m with movePlane := PlaneYZ }, b.removeWord w)
    else .error "Unknown command from group planeSelectionGroup"

/-- setUnits: G20/G21. -/
def setUnits (m : Machine) (b : Block) : Except String (Machine × Block) :=
  match b.getModalGroup "unitsGroup" with
  | .error e => .error e
  | .ok none => .ok (m, b)
  | .ok (some w) =>
    if w.address ≠ 'G' then .error "Unknown command from group unitsGroup"
    else if w.command = 20 then .ok ({ m with imperial := true }, b.removeWord w)
    else if w.command = 21 then .ok ({ m with imperial := false }, b.removeWord w)
    else .error "Unknown command from group unitsGroup"

/-- setCutterCompensation: G40/G41/G42. -/
def setCutterCompensation (m : Machine) (b : Block) :
    Except String (Machine × Block) :=
  match b.getModalGroup "cutterCompensationModeGroup" with
  | .error e => .error e
  | .ok none => .ok (m, b)
  | .ok (some w) =>
    if w.address ≠ 'G' then
      .error "Unknown command from group cutterCompensationModeGroup"
    else if w.command = 40 then
      .ok ({ m with state := { m.state with cutterCompensation := CutCompModeNone } },
        b.removeWord w)
    else if w.command = 41 then
      .ok ({ m with state := { m.state with cutterCompensation := CutCompModeOuter } },
        b.removeWord w)
    else if w.command = 42 then
      .ok ({ m with state := { m.state with cutterCompensation := CutCompModeInner } },
        b.removeWord w)
    else .error "Unknown command from group cutterCompensationModeGroup"

/-- setToolLength: G43 (with optional H word) / G49. -/
def setToolLength (m : Machine) (b : Block) : Except String (Machine × Block) :=
  match b.getModalGroup "toolLengthGroup" with
  | .error e => .error e
  | .ok none => .ok (m, b)
  | .ok (some w) =>
    if w.address ≠ 'G' then .error "Unknown command from group toolLengthGroup"
    else if w.command = 43 then
      let m := match b.getWord 'H' with
        | some nw => { m with state := { m.state with toolLengthIndex := ratTrunc nw } }
        | none => { m with state := { m.state with toolLengthIndex := m.state.toolIndex } }
      .ok (m, (b.removeAddress ['H']).removeWord w)
    else if w.command = 49 then
      .ok ({ m with state := { m.state with toolLengthIndex := 0 } }, b.removeWord w)
    else .error "Unknown command from group toolLengthGroup"

/-- setCoordinateSystem: G54 through G59.3 select work offset 1 through 9;
rejected while cutter compensation is enabled. -/
def setCoordinateSystem (m : Machine) (b : Block) :
    Except String (Machine × Block) :=
  match b.getModalGroup "coordinateSystemGroup" with
  | .error e => .error e
  | .ok none => .ok (m, b)
  | .ok (some w) =>
    if w.address ≠ 'G' then .error "Unknown command from group coordinateSystemGroup"
    else if m.state.cutterCompensation ≠ CutCompModeNone then
      .error "Coordinate system change attempted with cutter compensation enabled"
    else
      match (if w.command = 54 then some 1
             else if w.command = 55 then some 2
             else if w.command = 56 then some 3
             else if w.command = 57 then some 4
             else if w.command = 58 then some 5
             else if w.command = 59 then some 6
             else if w.command = 59.1 then some 7
             else if w.command = 59.2 then some 8
             else if w.command = 59.3 then some 9
             else (none : Option ℕ)) with
      | none => .error "Unknown command from group coordinateSystemGroup"
      | some s =>
        .ok ({ m with coordinateSystem :=
          m.coordinateSystem.selectCoordinateSystem s }, b.removeWord w)

/-- setDistanceMode: G90/G91. -/
def setDistanceMode (m : Machine) (b : Block) : Except String (Machine × Block) :=
  match b.getModalGroup "distanceModeGroup" with
  | .error e => .error e
  | .ok none => .ok (m, b)
  | .ok (some w) =>
    if w.address ≠ 'G' then .error "Unknown command from group distanceModeGroup"
    else if w.command = 90 then .ok ({ m with absoluteMove := true }, b.removeWord w)
    else if w.command = 91 then .ok ({ m with absoluteMove := false }, b.removeWord w)
    else .error "Unknown command from group distanceModeGroup"

/-- setArcDistanceMode: G90.1/G91.1. -/
def setArcDistanceMode (m : Machine) (b : Block) :
    Except String (Machine × Block) :=
  match b.getModalGroup "arcDistanceModeGroup" with
  | .error e => .error e
  | .ok none => .ok (m, b)
  | .ok (some w) =>
    if w.address ≠ 'G' then .error "Unknown command from group arcDistanceModeGroup"
    else if w.command = 90.1 then .ok ({ m with absoluteArc := true }, b.removeWord w)
    else if w.command = 91.1 then .ok ({ m with absoluteArc := false }, b.removeWord w)
    else .error "Unknown command from group arcDistanceModeGroup"

/-- The G4 case of nonModals: dwell for the non-negative P duration. -/
def nonModalDwell (m : Machine) (b : Block) (w : Word) :
    Except String (Machine × Block) :=
  match b.getWord 'P' with
  | some val =>
    if val < 0 then .error "dwell: P word negative"
    else .ok ((m.dwell val), (b.removeAddress ['P']).removeWord w)
  | none => .error "dwell: P word not specified or specified multiple times"

/-- The G10 case of nonModals: L2 writes a work-offset slot. -/
def nonModalG10 (m : Machine) (b : Block) (w : Word) :
    Except String (Machine × Block) :=
  match b.getWord 'L' with
  | some val =>
    if val = 2 then
      match b.getWord 'P' with
      | some cs =>
        let csi := ratTrunc cs
        let x := b.getWordDefault 'X' 0
        let y := b.getWordDefault 'Y' 0
        let z := b.getWordDefault 'Z' 0
        let (x, y, z) := m.axesToMetric x y z
        match m.coordinateSystem.setCoordinateSystem x y z csi with
        | .error e => .error e
        | .ok c =>
          let m := { m with coordinateSystem := c }
          let b := b.removeAddress ['X', 'Y', 'Z']
          let b := b.removeAddress ['P']
          .ok (m, (b.removeAddress ['L']).removeWord w)
      | none =>
        .error "coordinate system configuration: P word not specified or specified multiple times"
    else .ok (m, (b.removeAddress ['L']).removeWord w)
  | none => .error "G10 configuration: L word not specified or specified multiple times"

/-- The G28 case of nonModals: rapid via the optional block target to stored
position 1, restoring the prior move mode. -/
def nonModalG28 (m : Machine) (b : Block) (w : Word) : Machine × Block :=
  let oldMode := m.state.moveMode
  let m := { m with state := { m.state with moveMode := MoveModeRapid } }
  let (m, b) :=
    if b.includesOneOf ['X', 'Y', 'Z'] then
      let (newX, newY, newZ, _, _, _) := m.calcPos b
      (m.move newX newY newZ, b.removeAddress ['X', 'Y', 'Z'])
    else (m, b)
  let m := m.move m.storedPos1.x m.storedPos1.y m.storedPos1.z
  let m := { m with state := { m.state with moveMode := oldMode } }
  (m, b.removeWord w)

/-- The G30 case of nonModals: as G28 but to stored position 2. -/
def nonModalG30 (m : Machine) (b : Block) (w : Word) : Machine × Block :=
  let oldMode := m.state.moveMode
  let m := { m with state := { m.state with moveMode := MoveModeRapid } }
  let (m, b) :=
    if b.includesOneOf ['X', 'Y', 'Z'] then
      let (newX, newY, newZ, _, _, _) := m.calcPos b
      (m.move newX newY newZ, b.removeAddress ['X', 'Y', 'Z'])
    else (m, b)
  let m := m.move m.storedPos2.x m.storedPos2.y m.storedPos2.z
  let m := { m with state := { m.state with moveMode := oldMode } }
  (m, b.removeWord w)

/-- The G28.1 case of nonModals: store the current position in slot 1. -/
def nonModalG281 (m : Machine) (b : Block) (w : Word) : Machine × Block :=
  ({ m with storedPos1 := m.curPos.vec }, b.removeWord w)

/-- The G30.1 case of nonModals: store the current position in slot 2. -/
def nonModalG301 (m : Machine) (b : Block) (w : Word) : Machine × Block :=
  ({ m with storedPos2 := m.curPos.vec }, b.removeWord w)

/-- The G53 case of nonModals: set the per-block coordinate override. -/
def nonModalG53 (m : Machine) (b : Block) (w : Word) : Machine × Block :=
  ({ m with coordinateSystem := m.coordinateSystem.setOverride }, b.removeWord w)

/-- The G92.1 case of nonModals: erase the G92 offset. -/
def nonModalG921 (m : Machine) (b : Block) (w : Word) : Machine × Block :=
  ({ m with coordinateSystem := m.coordinateSystem.eraseOffset }, b.removeWord w)

/-- The G92.2 case of nonModals: disable the G92 offset. -/
def nonModalG922 (m : Machine) (b : Block) (w : Word) : Machine × Block :=
  ({ m with coordinateSystem := m.coordinateSystem.disableOffset }, b.removeWord w)

/-- The G92.3 case of nonModals: re-enable the G92 offset. -/
def nonModalG923 (m : Machine) (b : Block) (w : Word) : Machine × Block :=
  ({ m with coordinateSystem := m.coordinateSystem.enableOffset }, b.removeWord w)

/-- The G92 case of nonModals: compute and enable the offset that makes the
current position read as the given values. -/
def nonModalG92 (m : Machine) (b : Block) (w : Word) :
    Except String (Machine × Block) :=
  if b.includesOneOf ['X', 'Y', 'Z'] then
    let cp := m.curPos
    let x := b.getWordDefault 'X' 0
    let y := b.getWordDefault 'Y' 0
    let z := b.getWordDefault 'Z' 0
    let (x, y, z) := m.axesToMetric x y z
    let c := m.coordinateSystem.disableOffset
    let (x, y, z) := c.applyCoordinateSystem x y z
    let c := c.setOffset (cp.x - x) (cp.y - y) (cp.z - z)
    let c := c.enableOffset
    .ok ({ m with coordinateSystem := c },
      (b.removeAddress ['X', 'Y', 'Z']).removeWord w)
  else .error "G92 configuration: No axis words specified"

/-- nonModals: G4, G10, G28/G28.1, G30/G30.1, G53, G92/G92.1/G92.2/G92.3. -/
def nonModals (m : Machine) (b : Block) : Except String (Machine × Block) :=
  match b.getModalGroup "nonModalGroup" with
  | .error e => .error e
  | .ok none => .ok (m, b)
  | .ok (some w) =>
    if w.address ≠ 'G' then .error "Unknown command from group nonModalGroup"
    else if w.command = 4 then nonModalDwell m b w
    else if w.command = 10 then nonModalG10 m b w
    else if w.command = 28 then .ok (nonModalG28 m b w)
    else if w.command = 28.1 then .ok (nonModalG281 m b w)
    else if w.command = 30 then .ok (nonModalG30 m b w)
    else if w.command = 30.1 then .ok (nonModalG301 m b w)
    else if w.command = 53 then .ok (nonModalG53 m b w)
    else if w.command = 92 then nonModalG92 m b w
    else if w.command = 92.1 then .ok (nonModalG921 m b w)
    else if w.command = 92.2 then .ok (nonModalG922 m b w)
    else if w.command = 92.3 then .ok (nonModalG923 m b w)
    else .error "Unknown command from group nonModalGroup"

/-- setMoveMode: G0/G1/G2/G3/G80. -/
def setMoveMode (m : Machine) (b : Block) : Except String (Machine × Block) :=
  match b.getModalGroup "motionGroup" with
  | .error e => .error e
  | .ok none => .ok (m, b)
  | .ok (some w) =>
    if w.address ≠ 'G' then .error "Unknown command from group motionGroup"
    else if w.command = 0 then
      .ok ({ m with state := { m.state with moveMode := MoveModeRapid } }, b.removeWord w)
    else if w.command = 1 then
      .ok ({ m with state := { m.state with moveMode := MoveModeLinear } }, b.removeWord w)
    else if w.command = 2 then
      .ok ({ m with state := { m.state with moveMode := MoveModeCWArc } }, b.removeWord w)
    else if w.command = 3 then
      .ok ({ m with state := { m.state with moveMode := MoveModeCCWArc } }, b.removeWord w)
    else if w.command = 80 then
      .ok ({ m with state := { m.state with moveMode := MoveModeNone } }, b.removeWord w)
    else .error "Unknown command from group motionGroup"

/-- performMove: execute the motion of the block, if any axis word is
present: arcs are tessellated, lines and rapids appended directly. -/
def performMove (A : Analytic) (m : Machine) (b : Block) :
    Except String (Machine × Block) :=
  if !(b.includesOneOf ['X', 'Y', 'Z']) then .ok (m, b)
  else
    let s := m.state
    if s.feedMode = FeedModeInvTime ∧ s.feedrate = -1 ∧
        s.moveMode ≠ MoveModeRapid then
      .error "Non-rapid inverse time feed mode move attempted without a set feedrate"
    else if m.coordinateSystem.overrideActive ∧
        s.cutterCompensation ≠ CutCompModeNone then
      .error "Coordinate override attempted with cutter compensation enabled"
    else if m.coordinateSystem.overrideActive ∧
        (s.moveMode = MoveModeCWArc ∨ s.moveMode = MoveModeCCWArc) then
      .error "Coordinate override attempted for arc"
    else if s.moveMode = MoveModeCWArc ∨ s.moveMode = MoveModeCCWArc then
      let (newX, newY, newZ, newI, newJ, newK) := m.calcPos b
      match m.arc A newX newY newZ newI newJ newK (b.getWordDefault 'P' 1) with
      | .error e => .error e
      | .ok m' => .ok (m', b.removeAddress ['X', 'Y', 'Z', 'I', 'J', 'K', 'P'])
    else if s.moveMode = MoveModeLinear ∨ s.moveMode = MoveModeRapid then
      let (newX, newY, newZ, _, _, _) := m.calcPos b
      .ok (m.move newX newY newZ, b.removeAddress ['X', 'Y', 'Z'])
    else .error "Move attempted without an active move mode"

/-- setStop: M2/M30 mark the program as completed. -/
def setStop (m : Machine) (b : Block) : Except String (Machine × Block) :=
  match b.getModalGroup "stoppingGroup" with
  | .error e => .error e
  | .ok none => .ok (m, b)
  | .ok (some w) =>
    if w.address ≠ 'M' then .error "Unknown command from group stoppingGroup"
    else if w.command = 2 then .ok ({ m with completed := true }, b.removeWord w)
    else if w.command = 30 then .ok ({ m with completed := true }, b.removeWord w)
    else .error "Unknown command from group stoppingGroup"

/-- postCheck: any word left unconsumed is an error (or a logged warning when
remaining words are allowed). -/
def postCheck (m : Machine) (b : Block) : Except String (Machine × Block) :=
  if b.nodes.any (fun n => match n with | .word _ => true | _ => false) ∧
      !m.allowRemainingWords then
    .error "Unsupported commands left in block"
  else .ok (m, b)

/-- temporaryReset: clears the transient G53 override at end of block. -/
def temporaryReset (m : Machine) : Machine :=
  { m with coordinateSystem := m.coordinateSystem.cancelOverride }

/-- run: execute a single block through the priority chain; a completed
machine ignores further blocks. -/
def Machine.run (A : Analytic) (m : Machine) (b : Block) :
    Except String Machine :=
  if m.completed then .ok m
  else do
    let (m, b) ← lineNumber m b
    let (m, b) ← programName m b
    let (m, b) ← feedRateMode m b
    let (m, b) ← feedRate m b
    let (m, b) ← spindleSpeed m b
    let (m, b) ← Gocnc.nextTool m b
    let (m, b) ← toolChange m b
    let (m, b) ← setSpindle m b
    let (m, b) ← setCoolant m b
    let (m, b) ← setPolarMode m b
    let (m, b) ← setPlane m b
    let (m, b) ← setUnits m b
    let (m, b) ← setCutterCompensation m b
    let (m, b) ← setToolLength m b
    let (m, b) ← setCoordinateSystem m b
    let (m, b) ← setDistanceMode m b
    let (m, b) ← setArcDistanceMode m b
    let (m, b) ← nonModals m b
    let (m, b) ← setMoveMode m b
    let (m, b) ← performMove A m b
    let (m, b) ← setStop m b
    let (m, _) ← postCheck m b
    .ok (temporaryReset m)

/-- finalize: append a terminator position when the machine state differs
from the last recorded snapshot. -/
def Machine.finalize (m : Machine) : Machine :=
  if m.state ≠ m.curPos.state then
    let m := { m with state := { m.state with moveMode := MoveModeNone } }
    let curPos := m.curPos
    m.move curPos.x curPos.y curPos.z
  else m

/-- The block loop of Process, carrying the 0-based block index. -/
def processBlocks (A : Analytic) : Machine → List Block → ℕ →
    Except String Machine
  | m, [], _ => .ok m
  | m, b :: rest, idx =>
    if b.blockDelete ∧ m.ignoreBlockDelete then processBlocks A m rest (idx + 1)
    else
      match m.run A b with
      | .error e => .error ("line " ++ toString (idx + 1) ++ ": " ++ e)
      | .ok m' => processBlocks A m' rest (idx + 1)

/-- Process: run all blocks of a document, then finalize. -/
def Machine.process (A : Analytic) (m : Machine) (doc : Document) :
    Except String Machine :=
  match processBlocks A m doc.blocks 0 with
  | .error e => .error e
  | .ok m' => .ok m'.finalize

/-! ## helpers for concrete documents -/

/-- A block consisting only of words. -/
def wordsBlock (ws : List Word) : Block := ⟨ws.map Node.word, false⟩

/-- The words of a block, in order. -/
def blockWords (b : Block) : List Word :=
  b.nodes.filterMap fun n => match n with | .word w => some w | _ => none

/-- The occurrences (with repeats) of members of a modal group in a block. -/
def groupOccurrences (b : Block) (t : String) : List Word :=
  (blockWords b).filter fun w => isInGroup (groupWords t) w

/-- The distinct members of a modal group present in a block. -/
def distinctGroupWords (b : Block) (t : String) : List Word :=
  (groupOccurrences b t).dedup

/-! ## vm trace transformations (vm/utils.go) -/

/-- The (maxz, nextz) scan of SetSafetyHeight, one step per position. -/
def safetyScanStep (p : ℚ × ℚ) (z : ℚ) : ℚ × ℚ :=
  let (maxz, nextz) := p
  let (maxz, nextz) := if z > maxz then (z, maxz) else (maxz, nextz)
  let nextz := if z > nextz ∧ z < maxz then z else nextz
  (maxz, nextz)

/-- The rewrite loop of SetSafetyHeight: every position whose Z equals maxz
and whose XY continues the previous position is lifted to the new height. -/
def safetyApply (height maxz : ℚ) : ℚ → ℚ → List Position → List Position
  | _, _, [] => []
  | lastx, lasty, p :: rest =>
    (if lastx = p.x ∧ lasty = p.y ∧ p.z = maxz then { p with z := height } else p)
      :: safetyApply height maxz p.x p.y rest

/-- SetSafetyHeight: scan for the highest and next-highest Z (both scans
start at 0), fail on collision, else rewrite the plateau at maxz. Returned
as the updated machine together with the error, mirroring the in-place Go
mutation plus error return. -/
def Machine.setSafetyHeight (m : Machine) (height : ℚ) :
    Machine × Option String :=
  let (maxz, nextz) :=
    (m.positions.map Position.z).foldl safetyScanStep (0, 0)
  if height ≤ nextz then
    (m, some "New safety height collides with lower feed height")
  else
    ({ m with positions := safetyApply height maxz 0 0 m.positions }, none)

/-- Spec-side (from the claim wording): the highest Z value of the trace. -/
def claimMaxZ (zs : List ℚ) : Option ℚ := zs.max?

/-- Spec-side (from the claim wording): the second-highest distinct Z value
of the trace. -/
def claimNextZ (zs : List ℚ) : Option ℚ :=
  (zs.filter fun z => z < (zs.max?.getD 0)).max?

/-- What the scan actually computes for maxz: the maximum of the Z values
and 0. -/
def maxzPos (zs : List ℚ) : ℚ := zs.foldl max 0

/-- What the scan actually computes for nextz: the maximum of 0 and the Z
values strictly below maxzPos. -/
def nextzPos (zs : List ℚ) : ℚ :=
  (zs.filter fun z => z < maxzPos zs).foldl max 0

/-- Spec-side formulation of the rewrite: each position is compared against
its predecessor (the predecessor of the head being the origin). -/
def safetySpec (height maxz : ℚ) (ps : List Position) : List Position :=
  (ps.zip (Position.zero :: ps)).map fun pq =>
    if pq.2.x = pq.1.x ∧ pq.2.y = pq.1.y ∧ pq.1.z = maxz then
      { pq.1 with z := height }
    else pq.1

/-! ## export package: the differential code generator (export/generator.go) -/

/-- The vm State of the revision the generator is written against
(fields as accessed by HandlePosition: Tool rather than ToolIndex, no
tool-length or dwell fields). -/
structure GenState where
  feedrate : ℚ := 0
  spindleSpeed : ℚ := 0
  moveMode : ℤ := 0
  feedMode : ℤ := 0
  spindleEnabled : Bool := false
  spindleClockwise : Bool := false
  floodCoolant : Bool := false
  mistCoolant : Bool := false
  tool : ℤ := 0
  cutterCompensation : ℤ := 0
deriving DecidableEq

/-- A position of that revision. -/
structure GenPosition where
  state : GenState := {}
  x : ℚ := 0
  y : ℚ := 0
  z : ℚ := 0
deriving DecidableEq

/-- BaseGenerator.Init: State\x7b0, 0, 0, -1, false, false, false, false,
-1, -1\x7d at the zero position. -/
def genInitPosition : GenPosition :=
  { state := { feedrate := 0, spindleSpeed := 0, moveMode := 0, feedMode := -1,
               spindleEnabled := false, spindleClockwise := false,
               floodCoolant := false, mistCoolant := false,
               tool := -1, cutterCompensation := -1 },
    x := 0, y := 0, z := 0 }

/-- The operations a CodeGenerator exposes, reified as an event so a call
sequence can be reasoned about. -/
inductive GenOp where
  | toolchange (t : ℤ)
  | spindle (enabled clockwise : Bool) (speed : ℚ)
  | coolant (flood mist : Bool)
  | feedMode (mode : ℤ)
  | feedrate (f : ℚ)
  | cutterCompensation (mode : ℤ)
  | move (x y z : ℚ) (mode : ℤ)
deriving DecidableEq

/-- One conditional generator call: the op is appended to the emitted call
sequence when its guard holds. -/
def appendIf (c : Prop) [Decidable c] (ops : List GenOp) (op : GenOp) :
    List GenOp :=
  if c then ops ++ [op] else ops

/-- HandlePosition: compares the generator position with the target and
invokes the operations whose state components differ, in source order,
finally updating the generator position. Returns the emitted call sequence
together with the new generator position. -/
def handlePosition (cur pos : GenPosition) : List GenOp × GenPosition :=
  let cs := cur.state
  let ns := pos.state
  let ops : List GenOp := []
  let ops := appendIf (ns.tool ≠ cs.tool) ops (.toolchange ns.tool)
  let ops := appendIf (ns.spindleEnabled ≠ cs.spindleEnabled ∨
      ns.spindleClockwise ≠ cs.spindleClockwise ∨
      ns.spindleSpeed ≠ cs.spindleSpeed) ops
    (.spindle ns.spindleEnabled ns.spindleClockwise ns.spindleSpeed)
  let ops := appendIf (ns.floodCoolant ≠ cs.floodCoolant ∨
      ns.mistCoolant ≠ cs.mistCoolant) ops
    (.coolant ns.floodCoolant ns.mistCoolant)
  let ops := appendIf (ns.feedMode ≠ cs.feedMode) ops (.feedMode ns.feedMode)
  let ops := appendIf (ns.feedrate ≠ cs.feedrate) ops (.feedrate ns.feedrate)
  let ops := appendIf (ns.cutterCompensation ≠ cs.cutterCompensation) ops
    (.cutterCompensation ns.cutterCompensation)
  let ops := appendIf (cur.x ≠ pos.x ∨ cur.y ≠ pos.y ∨ cur.z ≠ pos.z) ops
    (.move pos.x pos.y pos.z ns.moveMode)
  (ops, pos)

/-- Spec-side (from the claim wording): the operations whose components
differ, in the order tool change, spindle, coolant, feed mode, feedrate,
cutter compensation, with a move whenever the coordinates differ or the
move mode differs. -/
def claimDispatch (cur pos : GenPosition) : List GenOp :=
  let cs := cur.state
  let ns := pos.state
  (if ns.tool ≠ cs.tool then [GenOp.toolchange ns.tool] else []) ++
  (if ns.spindleEnabled ≠ cs.spindleEnabled ∨
      ns.spindleClockwise ≠ cs.spindleClockwise ∨
      ns.spindleSpeed ≠ cs.spindleSpeed then
    [GenOp.spindle ns.spindleEnabled ns.spindleClockwise ns.spindleSpeed]
  else []) ++
  (if ns.floodCoolant ≠ cs.floodCoolant ∨ ns.mistCoolant ≠ cs.mistCoolant then
    [GenOp.coolant ns.floodCoolant ns.mistCoolant]
  else []) ++
  (if ns.feedMode ≠ cs.feedMode then [GenOp.feedMode ns.feedMode] else []) ++
  (if ns.feedrate ≠ cs.feedrate then [GenOp.feedrate ns.feedrate] else []) ++
  (if ns.cutterCompensation ≠ cs.cutterCompensation then
    [GenOp.cutterCompensation ns.cutterCompensation]
  else []) ++
  (if cur.x ≠ pos.x ∨ cur.y ≠ pos.y ∨ cur.z ≠ pos.z ∨
      ns.moveMode ≠ cs.moveMode then
    [GenOp.move pos.x pos.y pos.z ns.moveMode]
  else [])

/-- The code-side dispatch list: as the claim, except that a move is issued
exactly when the coordinates differ (a bare move-mode change does not move). -/
def codeDispatch (cur pos : GenPosition) : List GenOp :=
  let cs := cur.state
  let ns := pos.state
  (if ns.tool ≠ cs.tool then [GenOp.toolchange ns.tool] else []) ++
  (if ns.spindleEnabled ≠ cs.spindleEnabled ∨
      ns.spindleClockwise ≠ cs.spindleClockwise ∨
      ns.spindleSpeed ≠ cs.spindleSpeed then
    [GenOp.spindle ns.spindleEnabled ns.spindleClockwise ns.spindleSpeed]
  else []) ++
  (if ns.floodCoolant ≠ cs.floodCoolant ∨ ns.mistCoolant ≠ cs.mistCoolant then
    [GenOp.coolant ns.floodCoolant ns.mistCoolant]
  else []) ++
  (if ns.feedMode ≠ cs.feedMode then [GenOp.feedMode ns.feedMode] else []) ++
  (if ns.feedrate ≠ cs.feedrate then [GenOp.feedrate ns.feedrate] else []) ++
  (if ns.cutterCompensation ≠ cs.cutterCompensation then
    [GenOp.cutterCompensation ns.cutterCompensation]
  else []) ++
  (if cur.x ≠ pos.x ∨ cur.y ≠ pos.y ∨ cur.z ≠ pos.z then
    [GenOp.move pos.x pos.y pos.z ns.moveMode]
  else [])

/-! ## streaming package: the GRBL send protocol (streaming/grbl.go)

The Send loop is modelled as a state machine over the pending-entry list
(strings or checkpoint booleans), the byte counter, and the stream of raw
response lines the controller will deliver. The line text produced by the
GRBL generator for each position is taken as a parameter (a list of emitted
lines per position), since the buffer discipline is independent of the
formatting. The fields lineLens, writtenCount, ackCount and maxOut are
instrumentation: they record, without influencing any branch, the byte
lengths of the enqueued lines, how many of them have been written to the
port, how many have been dequeued against a response, and the largest
written-but-unacknowledged byte total ever reached. Where the Go code would
block forever (response stream exhausted, or draining an empty queue) the
model stops with an error. -/

/-- An entry of the pending list: an outgoing line or a progress checkpoint. -/
inductive Entry where
  | line (s : String)
  | checkpoint
deriving DecidableEq

/-- The classification a response line receives in serialReader. -/
inductive GrblRes where
  | ok
  | err (msg : String)
  | alarm (msg : String)
  | info (msg : String)
deriving DecidableEq

/-- serialReader: classify one raw response line. -/
def serialReader (b : String) : GrblRes :=
  if b = "ok\r\n" then .ok
  else if b.length ≥ 5 ∧ b.take 5 = "error" then .err ((b.drop 6).dropRight 1)
  else if b.length ≥ 5 ∧ b.take 5 = "alarm" then .alarm ((b.drop 6).dropRight 1)
  else .info (b.dropRight 1)

/-- The state of the Send loop. -/
structure SendState where
  length : ℤ := 0
  list : List Entry := []
  responses : List String := []
  okCnt : ℕ := 0
  progressReports : List ℕ := []
  lineLens : List ℕ := []
  writtenCount : ℕ := 0
  ackCount : ℕ := 0
  maxOut : ℤ := 0
deriving DecidableEq

/-- The byte lengths of the line entries of a pending list. -/
def pendingLineLens (l : List Entry) : List ℕ :=
  l.filterMap fun e => match e with | .line s => some s.length | .checkpoint => none

/-- The byte total of lines written to the port but not yet dequeued against
a response (instrumentation). -/
def outstanding (s : SendState) : ℤ :=
  (((s.lineLens.take s.writtenCount).drop s.ackCount).sum : ℤ)

/-- gen.HandleRes: consume one checkpoint, or read one response; an ok (or a
read error) dequeues the oldest pending entry and credits its length. -/
def handleRes (s : SendState) : SendState × Option String :=
  match s.list with
  | [] => (s, none)
  | .checkpoint :: rest =>
    ({ s with
        list := rest
        progressReports := s.progressReports ++ [s.okCnt]
        okCnt := s.okCnt + 1 }, none)
  | .line l :: rest =>
    match s.responses with
    | [] => (s, some "blocked forever reading a response")
    | r :: rs =>
      let s := { s with responses := rs }
      match serialReader r with
      | .err msg => (s, some ("Received error from CNC: " ++ msg))
      | .alarm msg => (s, some ("Received alarm from CNC: " ++ msg))
      | .info _ => (s, none)
      | .ok =>
        ({ s with
            list := rest
            length := s.length - l.length
            ackCount := s.ackCount + 1 }, none)

/-- The drain loop of gen.Write: while more than 127 bytes are pending, call
HandleRes. Draining an empty queue spins forever in Go; the model reports it. -/
def drain : ℕ → SendState → SendState × Option String
  | 0, s => (s, some "drain fuel exhausted")
  | fuel + 1, s =>
    if s.length > 127 then
      match s.list with
      | [] => (s, some "livelock: buffer can never drain")
      | _ =>
        match handleRes s with
        | (s', none) => drain fuel s'
        | r => r
    else (s, none)

/-- The physical write at the end of gen.Write: count the line as written and
record the outstanding byte total just produced (instrumentation). -/
def writeFinish (s : SendState) : SendState × Option String :=
  let s := { s with writtenCount := s.writtenCount + 1 }
  ({ s with maxOut := max s.maxOut (outstanding s) }, none)

/-- gen.Write: append the newline, count and enqueue the line, drain until at
most 127 bytes are pending, then write the line to the port. -/
def writeLine (s : SendState) (str : String) : SendState × Option String :=
  let str := str ++ "\n"
  let s := { s with
      length := s.length + str.length
      list := s.list ++ [Entry.line str]
      lineLens := s.lineLens ++ [str.length] }
  match drain (s.list.length + s.responses.length + 1) s with
  | (s, some e) => (s, some e)
  | (s, none) => writeFinish s

/-- All the lines a position expands to are written in order. -/
def writeGroup : SendState → List String → SendState × Option String
  | s, [] => (s, none)
  | s, l :: ls =>
    match writeLine s l with
    | (s, some e) => (s, some e)
    | (s, none) => writeGroup s ls

/-- The per-position loop of Send: emit the lines for the position, then
enqueue a checkpoint sentinel. -/
def sendLoop : SendState → List (List String) → SendState × Option String
  | s, [] => (s, none)
  | s, g :: gs =>
    match writeGroup s g with
    | (s, some e) => (s, some e)
    | (s, none) => sendLoop { s with list := s.list ++ [Entry.checkpoint] } gs

/-- The final acknowledgment loop of Send: HandleRes until every checkpoint
has cleared. -/
def finishLoop : ℕ → ℕ → SendState → SendState × Option String
  | 0, _, s => (s, some "finish fuel exhausted")
  | fuel + 1, n, s =>
    if s.okCnt < n then
      match s.list with
      | [] => (s, some "livelock: waiting for checkpoints that cannot arrive")
      | _ =>
        match handleRes s with
        | (s', none) => finishLoop fuel n s'
        | r => r
    else (s, none)

/-- GrblStreamer.Send, parametrized by the lines the generator emits for each
position and by the raw responses the controller will deliver. -/
def send (lineGroups : List (List String)) (responses : List String) :
    SendState × Option String :=
  let s0 : SendState := { responses := responses }
  match sendLoop s0 lineGroups with
  | (s, some e) => (s, some e)
  | (s, none) =>
    finishLoop (s.list.length + s.responses.length + 1) lineGroups.length s

/-! ## optimize package (optimize/pathgroup.go and OptBogusMoves) -/

/-- xyDiff: planar distance between two points. -/
def xyDiff (A : Analytic) (pos cur : Vec3) : ℚ :=
  let j := cur.diff pos
  normWith A ⟨j.x, j.y, 0⟩

/-- The scan state of OptPathGrouping: previous coordinates, collected drill
sets, the set in progress, detected safety height and drill feedrate. -/
structure ScanState where
  lastx : ℚ := 0
  lasty : ℚ := 0
  lastz : ℚ := 0
  sets : List (List Position) := []
  curSet : List Position := []
  safetyHeight : ℚ := 0
  drillSpeed : ℚ := 0
  sequenceStarted : Bool := false
deriving DecidableEq

/-- One iteration of the drill-set scan of OptPathGrouping. -/
def scanStep (st : ScanState) (p : Position) : Except String ScanState :=
  if p.z ≠ st.lastz ∧ (p.x ≠ st.lastx ∨ p.y ≠ st.lasty) then
    .error "Complex z-motion detected"
  else
    let branch : Except String (ScanState × Bool) :=
      if p.x = st.lastx ∧ p.y = st.lasty then
        if st.lastz ≥ 0 ∧ p.z < 0 then
          let st := { st with sequenceStarted := true }
          if p.state.moveMode = MoveModeLinear ∧
              p.state.feedrate > st.drillSpeed then
            if st.drillSpeed ≠ 0 then .error "Multiple drill feedrates detected"
            else .ok ({ st with drillSpeed := p.state.feedrate }, false)
          else .ok (st, false)
        else if st.lastz < 0 ∧ p.z ≥ 0 then
          let st := if st.sequenceStarted then
              { st with sets := st.sets ++ [st.curSet] }
            else st
          .ok ({ st with sequenceStarted := false, curSet := [] }, true)
        else .ok (st, false)
      else
        if p.z < 0 ∧ p.state.moveMode = MoveModeRapid then
          .error "Rapid move in stock detected"
        else .ok (st, false)
    match branch with
    | .error e => .error e
    | .ok (st, skipAppend) =>
      let append : Except String ScanState :=
        if !skipAppend ∧ st.sequenceStarted then
          if p.z > 0 then .error "Move above stock detected"
          else .ok { st with curSet := st.curSet ++ [p] }
        else .ok st
      match append with
      | .error e => .error e
      | .ok st =>
        let st := if p.z > st.safetyHeight then { st with safetyHeight := p.z } else st
        .ok { st with lastx := p.x, lasty := p.y, lastz := p.z }

/-- The whole scan phase plus the post-scan validity checks. -/
def scanPhase (ps : List Position) : Except String ScanState := do
  let st ← ps.foldlM scanStep {}
  if st.safetyHeight = 0 then .error "Unable to detect safety height"
  else if st.drillSpeed = 0 then .error "Unable to detect drill feedrate"
  else
    match st.curSet with
    | [] => .ok st
    | [p] =>
      if p.z ≠ st.safetyHeight ∨ st.lastz ≠ st.safetyHeight ∨
          p.x ≠ 0 ∨ p.y ≠ 0 then
        .error "Incomplete final drill set"
      else .ok st
    | _ => .error "Incomplete final drill set"

/-- The inner selection loop of the nearest-neighbour sort. -/
def selectSet (A : Analytic) (cur : Vec3) (sets : List (List Position)) :
    ℤ → ℤ
  | sel0 =>
    (List.range sets.length).foldl (fun (selectedSet : ℤ) (idx : ℕ) =>
      if selectedSet = -1 then (idx : ℤ)
      else
        let np := (sets.getD idx []).headD Position.zero
        let pp := (sets.getD selectedSet.toNat []).headD Position.zero
        let diff := xyDiff A np.vec cur
        let other := xyDiff A pp.vec cur
        if diff < other then (idx : ℤ)
        else if np.z > pp.z then (idx : ℤ)
        else selectedSet) sel0

/-- The outer nearest-neighbour sort loop; one set is removed per round, so
the fuel (the initial number of sets) is exact. -/
def sortLoop (A : Analytic) : ℕ → Vec3 → ℤ → List (List Position) →
    List (List Position) → List (List Position)
  | 0, _, _, _, sorted => sorted
  | fuel + 1, cur, sel0, sets, sorted =>
    if sets = [] then sorted
    else
      let sel := selectSet A cur sets sel0
      let chosen := sets.getD sel.toNat []
      let cur := (chosen.headD Position.zero).vec
      sortLoop A fuel cur (-1) (sets.eraseIdx sel.toNat) (sorted ++ [chosen])

/-- moveTo: between drill sets, either cut across directly (below tolerance)
or lift to the safety height, traverse, and descend at the drill feedrate. -/
def moveTo (A : Analytic) (tolerance safetyHeight drillSpeed : ℚ)
    (newPos : List Position) (pos : Position) : List Position :=
  let curPos := newPos.getLastD Position.zero
  if xyDiff A curPos.vec pos.vec < tolerance then
    let newPos :=
      if curPos.x ≠ pos.x ∨ curPos.y ≠ pos.y then
        let step1 := { curPos with
          state := { curPos.state with moveMode := MoveModeLinear },
          x := pos.x, y := pos.y }
        newPos ++ [step1]
      else newPos
    newPos ++ [pos]
  else
    let step1 := { curPos with
      state := { curPos.state with moveMode := MoveModeRapid },
      z := safetyHeight }
    let step2 := { step1 with x := pos.x, y := pos.y }
    let step3 := { step2 with
      state := { step2.state with moveMode := MoveModeLinear, feedrate := drillSpeed }
      z := pos.z }
    newPos ++ [step1, step2, step3]

/-- Reconstruction of the new position stack from the sorted sets. -/
def reconstruct (A : Analytic) (tolerance safetyHeight drillSpeed : ℚ)
    (sortedSets : List (List Position)) (origin : Position) : List Position :=
  sortedSets.foldl (fun newPos set =>
    match set with
    | [] => newPos
    | p :: rest =>
      let newPos := moveTo A tolerance safetyHeight drillSpeed newPos p
      newPos ++ rest) [origin]

/-- OptPathGrouping: returns the updated machine together with the error of
the pass, mirroring the in-place mutation plus recovered panic of the Go
code; the position stack is only assigned at the very end of the pass. -/
def optPathGrouping (A : Analytic) (m : Machine) (tolerance : ℚ) :
    Machine × Option String :=
  match scanPhase m.positions with
  | .error e => (m, some e)
  | .ok st =>
    let sorted := sortLoop A st.sets.length {} 0 st.sets []
    let newPos := reconstruct A tolerance st.safetyHeight st.drillSpeed
      sorted (m.positions.headD Position.zero)
    ({ m with positions := newPos }, none)

/-- OptBogusMoves: kill redundant partial moves by comparing unit vectors of
consecutive steps. Positions outside Rapid/Linear moves, and null moves, are
dropped from the rebuilt stack. -/
def optBogusMoves (A : Analytic) (m : Machine) : Machine :=
  let step := fun (acc : Vec3 × Vec3 × List Position) (p : Position) =>
    let (lastvec, st, npos) := acc
    let d := p.vec.diff st
    let st := p.vec
    if p.state.moveMode ≠ MoveModeRapid ∧ p.state.moveMode ≠ MoveModeLinear then
      (({} : Vec3), st, npos)
    else if d.x = 0 ∧ d.y = 0 ∧ d.z = 0 then
      (lastvec, st, npos)
    else
      let norm := normWith A d
      let vec := d.divide norm
      if vec = lastvec then (lastvec, st, npos.dropLast ++ [p])
      else (vec, st, npos ++ [p])
  let (_, _, npos) := m.positions.foldl step ({}, {}, [])
  { m with positions := npos }

/-! ## concrete fixtures used to settle individual claims -/

/-- Whether a generator event is a move. -/
def isMoveOp : GenOp → Bool
  | .move _ _ _ _ => true
  | _ => false

/-- An expected GetModalGroup outcome as a function of the group occurrences
found in the block. -/
def modalResult (l : List Word) : Except String (Option Word) :=
  match l with
  | [] => .ok none
  | [w] => .ok (some w)
  | _ => .error "Multiple gcodes from same modal group"

/-- G10 L2 P1 X5, then G54, then G1 X1: sets work offset 1 to x=5, selects
it, and moves to X1. -/
def c1Doc : Document :=
  ⟨[wordsBlock [⟨'G', 10⟩, ⟨'L', 2⟩, ⟨'P', 1⟩, ⟨'X', 5⟩],
    wordsBlock [⟨'G', 54⟩],
    wordsBlock [⟨'G', 1⟩, ⟨'X', 1⟩]]⟩

/-- A document consisting of the single block M6. -/
def c7Doc : Document := ⟨[wordsBlock [⟨'M', 6⟩]]⟩

/-- A block carrying the same motion word twice. -/
def c8Block : Block := wordsBlock [⟨'G', 1⟩, ⟨'G', 1⟩]

/-- A trace that never rises above Z0: origin, then two plunges at X0 Y0. -/
def c5Machine : Machine :=
  { Machine.zero with positions :=
      [Position.zero, ⟨{}, 0, 0, -1⟩, ⟨{}, 0, 0, -2⟩] }

/-- A trace whose only positive-Z plateau is the single position at Z5. -/
def c5bMachine : Machine :=
  { Machine.zero with positions :=
      [Position.zero, ⟨{}, 0, 0, 5⟩, ⟨{}, 0, 0, -1⟩] }

/-- A trace with simultaneous X and Z motion (a path-grouping violation). -/
def c6Machine : Machine :=
  { Machine.zero with positions := [Position.zero, ⟨{}, 1, 0, -1⟩] }

/-- A generator target equal to the initial generator position except for the
move mode. -/
def c4Target : GenPosition :=
  { genInitPosition with state :=
      { genInitPosition.state with moveMode := MoveModeRapid } }

/-- An analytic oracle pinned at the values the float64 math library
produces (to within float rounding) for the tiny clockwise semicircle from
(0,0,0) to (0.002,0,0) around (0.001,0): the only square root consulted is
that of 0.000001 = 0.001^2, which is exact, and the two atan2 calls are at
angle pi (x negative) and angle 0 (x positive). -/
def ATiny : Analytic :=
  { sqrt := fun q => if q = 0.000001 then 0.001 else 0,
    atan2 := fun _ x => if x < 0 then 3.14159265 else 0,
    acos := fun _ => 0,
    cos := fun _ => 0,
    sin := fun _ => 0,
    pi := 3.14159265 }

/-- The tiny arc as a document: G2 X0.002 I0.001 from the origin. -/
def c10Doc : Document :=
  ⟨[wordsBlock [⟨'G', 2⟩, ⟨'X', 0.002⟩, ⟨'I', 0.001⟩]]⟩

/-! ## predicates used by the invariance proofs -/

/-- A position whose recorded move mode is not an arc mode. -/
def goodMode (p : Position) : Prop :=
  p.state.moveMode ≠ MoveModeCWArc ∧ p.state.moveMode ≠ MoveModeCCWArc

/-- The trace of the second machine extends the trace of the first by
arc-free positions only. -/
def ExtGood (m m' : Machine) : Prop :=
  ∃ ext, m'.positions = m.positions ++ ext ∧ ∀ p ∈ ext, goodMode p

/-- A block handler only ever appends arc-free positions. -/
def extendsGood (f : Machine → Block → Except String (Machine × Block)) : Prop :=
  ∀ m b m' b', f m b = .ok (m', b') → ExtGood m m'

/-- The structural invariant of the Send model: the byte counter equals the
pending line bytes, the pending lines are exactly the enqueued lines not yet
dequeued, and the recorded outstanding maximum is within the window. -/
def sendInv (s : SendState) : Prop :=
  s.length = ((pendingLineLens s.list).sum : ℤ) ∧
  pendingLineLens s.list = s.lineLens.drop s.ackCount ∧
  s.ackCount ≤ s.lineLens.length ∧
  s.maxOut ≤ 127

/-- The machine produced by processing c1Doc (used to instantiate the
process-level theorems on a concrete accepted document). -/
def processedC1 : Machine :=
  ((Machine.zero.initVM.process A0 c1Doc).toOption).getD Machine.zero

/-- A machine about to cut a clockwise arc. -/
def arcStartMachine : Machine :=
  { Machine.zero.initVM with state :=
      { Machine.zero.initVM.state with moveMode := MoveModeCWArc } }

/-- The machine produced by the tiny concrete arc. -/
def arcResultMachine : Machine :=
  ((arcStartMachine.arc ATiny 0.002 0 0 0.001 0 0 1).toOption).getD Machine.zero

/-! ## general lemmas -/

theorem except_bind_ok {α β : Type} {x : Except String α} {f : α → Except String β}
    {v : β} (h : (x >>= f) = .ok v) : ∃ a, x = .ok a ∧ f a = .ok v := by
  cases x with
  | ok a => exact ⟨a, rfl, h⟩
  | error e => simp [Bind.bind, Except.bind] at h

/-! ## C1: coordinate resolution of motion blocks -/

/-- C1: the claim states that motion coordinates are resolved as raw values
plus the active work offset plus the enabled G92 offset. The code records
the offsets (G10 L2 writes them, G54 selects them, ApplyCoordinateSystem
would add 5 to the X raw value 1) but never applies them to a move: the
position appended for G1 X1 is X=1, not X=6, even though the selected
offset is active, enabled for application, and no G53 override is in
force. -/
theorem c1_offsets_recorded_but_not_applied :
    (Machine.zero.initVM.process A0 c1Doc).map
        (fun m => m.positions.map Position.x) = .ok [0, 1] ∧
    (Machine.zero.initVM.process A0 c1Doc).map
        (fun m => (m.coordinateSystem.applyCoordinateSystem 1 0 0).1) = .ok 6 ∧
    (Machine.zero.initVM.process A0 c1Doc).map
        (fun m => m.coordinateSystem.overrideActive) = .ok false := by
  refine ⟨?_, ?_, ?_⟩ <;> decide

/-! ## C10: the tessellation step count of short arcs -/

/-- C10: the claim states that the step count surviving the
minimum-line-length clamp is at least 1, so that the interpolation divisor
float64(steps) is never zero. For the clockwise semicircle of radius 0.001
from (0,0,0) to (0.002,0,0) (shorter than the default minimum line length
0.01), the radius checks pass and steps comes out 0; the Process run
accepts the document without any error, so the Go code divides by zero and
emits non-finite coordinates. -/
theorem c10_steps_zero_for_short_arc :
    (arcCore ATiny 0.002 0.01 0 0 0 0.002 0 0 0.001 0 1 true).map
        (fun r => r.2.2.2) = .ok 0 ∧
    (Machine.zero.initVM.process ATiny c10Doc).isOk = true := by
  exact ⟨by decide, by decide⟩

/-! ## C8: GetModalGroup -/

theorem getModalGroup_go_some (group : List Word) :
    ∀ (ns : List Node) (w : Word),
      Block.getModalGroup.go group ns (some w) =
        match (ns.filterMap fun n =>
            match n with | .word x => some x | _ => none).filter
            (fun x => isInGroup group x) with
        | [] => .ok (some w)
        | _ => .error "Multiple gcodes from same modal group" := by
  intro ns
  induction ns with
  | nil => intro w; rfl
  | cons n rest ih =>
    intro w
    cases n with
    | word x =>
      by_cases hx : isInGroup group x
      · simp [Block.getModalGroup.go, hx]
      · simp [Block.getModalGroup.go, hx, ih]
    | comment s e => simpa [Block.getModalGroup.go] using ih w
    | filemarker => simpa [Block.getModalGroup.go] using ih w

theorem getModalGroup_go_none (group : List Word) :
    ∀ ns : List Node,
      Block.getModalGroup.go group ns none =
        modalResult ((ns.filterMap fun n =>
            match n with | .word x => some x | _ => none).filter
            (fun x => isInGroup group x)) := by
  intro ns
  induction ns with
  | nil => rfl
  | cons n rest ih =>
    cases n with
    | word x =>
      by_cases hx : isInGroup group x
      · simp only [Block.getModalGroup.go, hx, if_true, List.filterMap_cons,
          List.filter_cons, decide_eq_true_eq]
        rw [getModalGroup_go_some]
        cases hrest : (rest.filterMap fun n =>
            match n with | .word x => some x | _ => none).filter
            (fun x => isInGroup group x) with
        | nil => simp [modalResult, hx, hrest]
        | cons a l => simp [modalResult, hx, hrest]
      · simpa [Block.getModalGroup.go, hx] using ih
    | comment s e => simpa [Block.getModalGroup.go] using ih
    | filemarker => simpa [Block.getModalGroup.go] using ih

/-- C8 (amended): GetModalGroup returns an error precisely when more than
one word of the group occurs in the block, repeats of the same word
included; otherwise it returns the unique occurrence, or nothing when the
group is absent. -/
theorem c8_modal_group_characterization (b : Block) (t : String) :
    b.getModalGroup t = modalResult (groupOccurrences b t) := by
  unfold Block.getModalGroup groupOccurrences blockWords
  exact getModalGroup_go_none (groupWords t) b.nodes

/-- C8 counterexample: a block carrying G1 twice contains only one distinct
motion word, yet GetModalGroup reports the duplicate-word error, refuting
the claim that an error occurs precisely when two distinct group members
appear. -/
theorem c8_identical_duplicates_also_error :
    c8Block.getModalGroup "motionGroup" =
      .error "Multiple gcodes from same modal group" ∧
    distinctGroupWords c8Block "motionGroup" = [⟨'G', 1⟩] := by
  exact ⟨rfl, by decide⟩

/-! ## C4: the differential dispatcher -/

theorem appendIf_eq (c : Prop) [Decidable c] (ops : List GenOp) (op : GenOp) :
    appendIf c ops op = ops ++ (if c then [op] else []) := by
  unfold appendIf
  split <;> simp

theorem any_ite_singleton (c : Prop) [Decidable c] (op : GenOp)
    (p : GenOp → Bool) :
    (if c then [op] else []).any p = (decide c && p op) := by
  split <;> simp_all

/-- C4 (amended): HandlePosition invokes exactly the operations whose state
components differ, in the order tool change, spindle, coolant, feed mode,
feedrate, cutter compensation, then issues a move exactly when the XYZ
coordinates differ (a differing move mode alone does not trigger a move),
and finally adopts the target as the generator position. -/
theorem c4_dispatch_characterization (cur pos : GenPosition) :
    handlePosition cur pos = (codeDispatch cur pos, pos) ∧
    (((handlePosition cur pos).1.any isMoveOp) = true ↔
      (cur.x ≠ pos.x ∨ cur.y ≠ pos.y ∨ cur.z ≠ pos.z)) := by
  have hmain : handlePosition cur pos = (codeDispatch cur pos, pos) := by
    simp only [handlePosition, codeDispatch, appendIf_eq, List.nil_append,
      List.append_assoc]
  refine ⟨hmain, ?_⟩
  rw [hmain]
  simp only [codeDispatch, List.any_append, any_ite_singleton, isMoveOp]
  simp

/-- C4 counterexample: a target that differs from the generator position only
in its move mode produces no generator calls at all, refuting the claim that
a move is issued whenever the move mode differs. -/
theorem c4_move_mode_change_alone_moves_nothing :
    (handlePosition genInitPosition c4Target).1 = [] ∧
    c4Target.state.moveMode ≠ genInitPosition.state.moveMode ∧
    (c4Target.x, c4Target.y, c4Target.z) =
      (genInitPosition.x, genInitPosition.y, genInitPosition.z) := by
  decide

/-! ## C5: SetSafetyHeight -/

theorem foldl_max_init_le (l : List ℚ) : ∀ a : ℚ, a ≤ l.foldl max a := by
  induction l with
  | nil => intro a; exact le_refl a
  | cons x xs ih =>
    intro a
    exact le_trans (le_max_left a x) (ih (max a x))

theorem mem_le_foldl_max (l : List ℚ) :
    ∀ (a x : ℚ), x ∈ l → x ≤ l.foldl max a := by
  induction l with
  | nil => intro a x hx; cases hx
  | cons y ys ih =>
    intro a x hx
    rcases List.mem_cons.mp hx with h | h
    · subst h
      exact le_trans (le_max_right a x) (foldl_max_init_le ys (max a x))
    · exact ih (max a y) x h

theorem maxzPos_nonneg (zs : List ℚ) : 0 ≤ maxzPos zs :=
  foldl_max_init_le zs 0

theorem mem_le_maxzPos {zs : List ℚ} {x : ℚ} (hx : x ∈ zs) : x ≤ maxzPos zs :=
  mem_le_foldl_max zs 0 x hx

theorem safetyScanStep_eq (M N z : ℚ) :
    safetyScanStep (M, N) z =
      if z > M then (z, M)
      else if z > N ∧ z < M then (M, z)
      else (M, N) := by
  unfold safetyScanStep
  by_cases h1 : z > M
  · simp [h1, lt_irrefl]
  · by_cases h2 : z > N ∧ z < M
    · simp [h1, h2]
    · simp [h1, h2]

/-- The (maxz, nextz) scan of SetSafetyHeight computes the maximum of the
trace and 0, and the maximum of 0 and the values strictly below that. -/
theorem safetyScan_eq (zs : List ℚ) :
    zs.foldl safetyScanStep (0, 0) = (maxzPos zs, nextzPos zs) := by
  induction zs using List.reverseRecOn with
  | nil => rfl
  | append_singleton l z ih =>
    rw [List.foldl_append, ih]
    have hstep : List.foldl safetyScanStep (maxzPos l, nextzPos l) [z] =
        safetyScanStep (maxzPos l, nextzPos l) z := rfl
    rw [hstep, safetyScanStep_eq]
    have hmax : maxzPos (l ++ [z]) = max (maxzPos l) z := by
      simp [maxzPos, List.foldl_append]
    by_cases hzM : z > maxzPos l
    · have h1 : maxzPos (l ++ [z]) = z := by
        rw [hmax]; exact max_eq_right hzM.le
      have hfl : l.filter (fun x => decide (x < z)) = l :=
        List.filter_eq_self.mpr fun x hx => by
          simp only [decide_eq_true_eq]
          exact lt_of_le_of_lt (mem_le_maxzPos hx) hzM
      have h3 : nextzPos (l ++ [z]) = maxzPos l := by
        unfold nextzPos
        rw [h1, List.filter_append, hfl]
        have hz : [z].filter (fun x => decide (x < z)) = [] := by
          simp [lt_irrefl]
        rw [hz, List.append_nil]
        rfl
      rw [if_pos hzM, h1, h3]
    · push_neg at hzM
      have h1 : maxzPos (l ++ [z]) = maxzPos l := by
        rw [hmax]; exact max_eq_left hzM
      rw [if_neg (not_lt.mpr hzM)]
      by_cases h2 : z > nextzPos l ∧ z < maxzPos l
      · have h3 : nextzPos (l ++ [z]) = z := by
          unfold nextzPos
          rw [h1, List.filter_append]
          have hz : [z].filter (fun x => decide (x < maxzPos l)) = [z] := by
            simp [h2.2]
          rw [hz, List.foldl_append]
          simp only [List.foldl]
          exact max_eq_right h2.1.le
        rw [if_pos h2, h1, h3]
      · have h3 : nextzPos (l ++ [z]) = nextzPos l := by
          unfold nextzPos
          rw [h1, List.filter_append]
          by_cases hzM2 : z < maxzPos l
          · have hzN : z ≤ nextzPos l := by
              rcases not_and_or.mp h2 with h | h
              · exact not_lt.mp h
              · exact absurd hzM2 h
            have hz : [z].filter (fun x => decide (x < maxzPos l)) = [z] := by
              simp [hzM2]
            rw [hz, List.foldl_append]
            simp only [List.foldl]
            exact max_eq_left hzN
          · have hz : [z].filter (fun x => decide (x < maxzPos l)) = [] := by
              simp [hzM2]
            rw [hz, List.append_nil]
        rw [if_neg h2, h1, h3]

/-- The rewrite loop of SetSafetyHeight equals the predecessor-zip spec. -/
theorem safetyApply_eq (height maxz : ℚ) :
    ∀ (ps : List Position) (q : Position),
      safetyApply height maxz q.x q.y ps =
        (ps.zip (q :: ps)).map (fun pq =>
          if pq.2.x = pq.1.x ∧ pq.2.y = pq.1.y ∧ pq.1.z = maxz then
            { pq.1 with z := height }
          else pq.1) := by
  intro ps
  induction ps with
  | nil => intro q; rfl
  | cons p rest ih =>
    intro q
    simp only [safetyApply, List.zip_cons_cons, List.map_cons]
    rw [ih p]

/-- C5 (amended): SetSafetyHeight fails exactly when the height is at most
nextz, where nextz is the largest trace Z value strictly below the largest
one, with both maxima floored at 0 (so nextz is the second-highest distinct
positive Z, or 0 when there is none); on failure the machine is untouched,
and on success exactly the positions at the (floored) maximum Z whose XY
continues the preceding position (the origin standing before the first) are
rewritten to the new height. -/
theorem c5_safety_height_characterization (m : Machine) (h : ℚ) :
    ((m.setSafetyHeight h).2.isSome ↔
        h ≤ nextzPos (m.positions.map Position.z)) ∧
    ((m.setSafetyHeight h).2.isSome → (m.setSafetyHeight h).1 = m) ∧
    ((m.setSafetyHeight h).2 = none →
        (m.setSafetyHeight h).1.positions =
          safetySpec h (maxzPos (m.positions.map Position.z)) m.positions) := by
  unfold Machine.setSafetyHeight
  rw [safetyScan_eq]
  by_cases hc : h ≤ nextzPos (m.positions.map Position.z)
  · simp [hc]
  · have happ := safetyApply_eq h (maxzPos (m.positions.map Position.z))
      m.positions Position.zero
    refine ⟨by simp [hc], by simp [hc], ?_⟩
    intro _
    simp only [hc, if_false]
    simpa [safetySpec, Position.zero] using happ

/-- C5 counterexample: for the trace with Z values 0, -1, -2 the
second-highest distinct Z value is -1 and the requested height -1/2 exceeds
it, so the claim predicts success; the code nevertheless reports a
collision, because its scan never returns a nextz below 0. -/
theorem c5_negative_trace_counterexample :
    ((c5Machine.setSafetyHeight (-1/2)).2).isSome = true ∧
    claimNextZ (c5Machine.positions.map Position.z) = some (-1) ∧
    ¬((-1/2 : ℚ) ≤ -1) := by
  decide

/-! ## C6: OptPathGrouping error containment -/

/-- C6: whenever OptPathGrouping reports an error, the position trace is
exactly what it was before the call: the scan-phase violations (complex Z
motion, rapid below Z0, motion above Z0 inside a set, multiple drill
feedrates, incomplete final set, undetectable safety height or drill
feedrate) all fire before the single final assignment of the position
stack. -/
theorem c6_pathgroup_error_leaves_trace_untouched (A : Analytic) (m : Machine)
    (tol : ℚ) (e : String)
    (he : (optPathGrouping A m tol).2 = some e) :
    (optPathGrouping A m tol).1 = m := by
  unfold optPathGrouping at he ⊢
  cases hscan : scanPhase m.positions with
  | error e2 => simp [hscan]
  | ok st => simp [hscan] at he

/-- Witness: the complex-Z-motion violation concretely fires and leaves the
trace untouched. -/
theorem c6_pathgroup_error_leaves_trace_untouched_witness :
    (optPathGrouping A0 c6Machine (1/10)).1 = c6Machine ∧
    (optPathGrouping A0 c6Machine (1/10)).2 = some "Complex z-motion detected" :=
  ⟨c6_pathgroup_error_leaves_trace_untouched A0 c6Machine (1/10)
      "Complex z-motion detected" (by decide),
    by decide⟩

/-! ## C7: M6 tool changes -/

/-- C7: an M6 with nextTool still at its Init value -1 is a hard error (shown
both at the toolChange step and through a whole Process run), and an M6
after a T word has set a non-negative nextTool copies it into the state
tool index. -/
theorem c7_m6_requires_tool :
    (∀ (m : Machine) (b : Block), m.nextTool = -1 →
        b.getModalGroup "toolChangeGroup" = .ok (some ⟨'M', 6⟩) →
        ∃ e, toolChange m b = .error e) ∧
    (∀ (m : Machine) (b : Block), 0 ≤ m.nextTool →
        b.getModalGroup "toolChangeGroup" = .ok (some ⟨'M', 6⟩) →
        toolChange m b = .ok
          ({ m with state := { m.state with toolIndex := m.nextTool } },
            b.removeWord ⟨'M', 6⟩)) ∧
    Machine.zero.initVM.process A0 c7Doc =
      .error "line 1: Toolchange attempted without a defined tool" := by
  refine ⟨?_, ?_, by decide⟩
  · intro m b h1 h2
    unfold toolChange
    rw [h2]
    simp [h1]
  · intro m b h1 h2
    unfold toolChange
    rw [h2]
    have hne : ¬(m.nextTool = -1) := by omega
    simp [hne]

/-- Witness: both toolChange branches of C7 at concrete inputs. -/
theorem c7_m6_requires_tool_witness :
    (∃ e, toolChange Machine.zero.initVM (wordsBlock [⟨'M', 6⟩]) = .error e) ∧
    toolChange { Machine.zero.initVM with nextTool := 3 }
        (wordsBlock [⟨'M', 6⟩]) = .ok
      ({ { Machine.zero.initVM with nextTool := 3 } with state :=
          { { Machine.zero.initVM with nextTool := 3 }.state with toolIndex := 3 } },
        (wordsBlock [⟨'M', 6⟩]).removeWord ⟨'M', 6⟩) :=
  ⟨c7_m6_requires_tool.1 Machine.zero.initVM (wordsBlock [⟨'M', 6⟩])
      (by decide) (by decide),
    c7_m6_requires_tool.2.1 { Machine.zero.initVM with nextTool := 3 }
      (wordsBlock [⟨'M', 6⟩]) (by decide) (by decide)⟩

end Gocnc

open Gocnc

theorem ExtGood.rfl (m : Machine) : ExtGood m m := ⟨[], by simp, by simp⟩

theorem ExtGood.of_eq {m m' : Machine} (h : m'.positions = m.positions) :
    ExtGood m m' := ⟨[], by simp [h], by simp⟩

theorem ExtGood.trans {m1 m2 m3 : Machine} (h1 : ExtGood m1 m2)
    (h2 : ExtGood m2 m3) : ExtGood m1 m3 := by
  obtain ⟨e1, he1, hg1⟩ := h1
  obtain ⟨e2, he2, hg2⟩ := h2
  refine ⟨e1 ++ e2, ?_, ?_⟩
  · rw [he2, he1, List.append_assoc]
  · intro p hp
    rcases List.mem_append.mp hp with h | h
    · exact hg1 p h
    · exact hg2 p h

theorem extGood_ok_trans {X m' : Machine} {bb b' : Block} {m : Machine}
    (h : (Except.ok (X, bb) : Except String (Machine × Block)) = Except.ok (m', b'))
    (hx : ExtGood m X) : ExtGood m m' := by
  simp only [Except.ok.injEq, Prod.mk.injEq] at h
  exact h.1 ▸ hx

theorem move_extGood {m : Machine}
    (hm : m.state.moveMode ≠ MoveModeCWArc ∧ m.state.moveMode ≠ MoveModeCCWArc)
    (x y z : ℚ) : ExtGood m (m.move x y z) := by
  refine ⟨[⟨m.state, x, y, z⟩], by simp [Machine.move], ?_⟩
  intro p hp
  simp only [List.mem_singleton] at hp
  subst hp
  exact hm

theorem dwell_extGood (m : Machine) (s : ℚ) : ExtGood m (m.dwell s) := by
  refine ⟨[⟨{ m.state with moveMode := MoveModeDwell, dwellTime := s },
      m.curPos.x, m.curPos.y, m.curPos.z⟩], by simp [Machine.dwell, Machine.move, Machine.curPos], ?_⟩
  intro p hp
  simp only [List.mem_singleton] at hp
  subst hp
  exact ⟨show MoveModeDwell ≠ MoveModeCWArc by decide,
    show MoveModeDwell ≠ MoveModeCCWArc by decide⟩

theorem extGood_update_move_restore (m : Machine) (s : State)
    (hs : s.moveMode ≠ MoveModeCWArc ∧ s.moveMode ≠ MoveModeCCWArc)
    (x1 y1 z1 : ℚ) (s2 : State) :
    ExtGood m { ({ m with state := s }).move x1 y1 z1 with state := s2 } := by
  refine ⟨[⟨s, x1, y1, z1⟩], by simp [Machine.move], ?_⟩
  intro p hp
  simp only [List.mem_singleton] at hp
  subst hp
  exact hs

theorem extGood_update_move_move_restore (m : Machine) (s : State)
    (hs : s.moveMode ≠ MoveModeCWArc ∧ s.moveMode ≠ MoveModeCCWArc)
    (x1 y1 z1 x2 y2 z2 : ℚ) (s2 : State) :
    ExtGood m { (({ m with state := s }).move x1 y1 z1).move x2 y2 z2
      with state := s2 } := by
  refine ⟨[⟨s, x1, y1, z1⟩, ⟨s, x2, y2, z2⟩], by simp [Machine.move], ?_⟩
  intro p hp
  rcases List.mem_cons.mp hp with h | h
  · subst h; exact hs
  · simp only [List.mem_singleton] at h
    subst h; exact hs

theorem extendsGood_lineNumber : extendsGood lineNumber := by
  intro m b m' b' h
  unfold lineNumber at h
  repeat' split at h
  all_goals
    first
      | exact Except.noConfusion h
      | exact extGood_ok_trans h (ExtGood.of_eq (by simp [apply_ite Machine.positions]))


set_option maxHeartbeats 1000000 in
theorem extendsGood_programName : extendsGood programName := by
  intro m b m' b' h
  unfold programName at h
  repeat' split at h
  all_goals
    first
      | exact Except.noConfusion h
      | exact extGood_ok_trans h (ExtGood.of_eq (by simp [apply_ite Machine.positions]))

set_option maxHeartbeats 1000000 in
theorem extendsGood_feedRateMode : extendsGood feedRateMode := by
  intro m b m' b' h
  unfold feedRateMode at h
  repeat' split at h
  all_goals
    first
      | exact Except.noConfusion h
      | exact extGood_ok_trans h (ExtGood.of_eq (by simp [apply_ite Machine.positions]))

set_option maxHeartbeats 1000000 in
theorem extendsGood_feedRate : extendsGood feedRate := by
  intro m b m' b' h
  unfold feedRate at h
  repeat' split at h
  all_goals
    first
      | exact Except.noConfusion h
      | exact extGood_ok_trans h (ExtGood.of_eq (by simp [apply_ite Machine.positions]))

set_option maxHeartbeats 1000000 in
theorem extendsGood_spindleSpeed : extendsGood spindleSpeed := by
  intro m b m' b' h
  unfold spindleSpeed at h
  repeat' split at h
  all_goals
    first
      | exact Except.noConfusion h
      | exact extGood_ok_trans h (ExtGood.of_eq (by simp [apply_ite Machine.positions]))

set_option maxHeartbeats 1000000 in
theorem extendsGood_nextTool : extendsGood Gocnc.nextTool := by
  intro m b m' b' h
  unfold Gocnc.nextTool at h
  repeat' split at h
  all_goals
    first
      | exact Except.noConfusion h
      | exact extGood_ok_trans h (ExtGood.of_eq (by simp [apply_ite Machine.positions]))

set_option maxHeartbeats 1000000 in
theorem extendsGood_toolChange : extendsGood toolChange := by
  intro m b m' b' h
  unfold toolChange at h
  repeat' split at h
  all_goals
    first
      | exact Except.noConfusion h
      | exact extGood_ok_trans h (ExtGood.of_eq (by simp [apply_ite Machine.positions]))

set_option maxHeartbeats 1000000 in
theorem extendsGood_setSpindle : extendsGood setSpindle := by
  intro m b m' b' h
  unfold setSpindle at h
  repeat' split at h
  all_goals
    first
      | exact Except.noConfusion h
      | exact extGood_ok_trans h (ExtGood.of_eq (by simp [apply_ite Machine.positions]))

set_option maxHeartbeats 1000000 in
theorem extendsGood_setCoolant : extendsGood setCoolant := by
  intro m b m' b' h
  unfold setCoolant at h
  repeat' split at h
  all_goals
    first
      | exact Except.noConfusion h
      | exact extGood_ok_trans h (ExtGood.of_eq (by simp [apply_ite Machine.positions]))

set_option maxHeartbeats 1000000 in
theorem extendsGood_setPolarMode : extendsGood setPolarMode := by
  intro m b m' b' h
  unfold setPolarMode at h
  repeat' split at h
  all_goals
    first
      | exact Except.noConfusion h
      | exact extGood_ok_trans h (ExtGood.of_eq (by simp [apply_ite Machine.positions]))

set_option maxHeartbeats 1000000 in
theorem extendsGood_setPlane : extendsGood setPlane := by
  intro m b m' b' h
  unfold setPlane at h
  repeat' split at h
  all_goals
    first
      | exact Except.noConfusion h
      | exact extGood_ok_trans h (ExtGood.of_eq (by simp [apply_ite Machine.positions]))

set_option maxHeartbeats 1000000 in
theorem extendsGood_setUnits : extendsGood setUnits := by
  intro m b m' b' h
  unfold setUnits at h
  repeat' split at h
  all_goals
    first
      | exact Except.noConfusion h
      | exact extGood_ok_trans h (ExtGood.of_eq (by simp [apply_ite Machine.positions]))

set_option maxHeartbeats 1000000 in
theorem extendsGood_setCutterCompensation : extendsGood setCutterCompensation := by
  intro m b m' b' h
  unfold setCutterCompensation at h
  repeat' split at h
  all_goals
    first
      | exact Except.noConfusion h
      | exact extGood_ok_trans h (ExtGood.of_eq (by simp [apply_ite Machine.positions]))

set_option maxHeartbeats 1000000 in
theorem extendsGood_setToolLength : extendsGood setToolLength := by
  intro m b m' b' h
  unfold setToolLength at h
  repeat' split at h
  all_goals
    first
      | exact Except.noConfusion h
      | exact extGood_ok_trans h (ExtGood.of_eq (by simp [apply_ite Machine.positions]))

set_option maxHeartbeats 1000000 in
theorem extendsGood_setCoordinateSystem : extendsGood setCoordinateSystem := by
  intro m b m' b' h
  unfold setCoordinateSystem at h
  repeat' split at h
  all_goals
    first
      | exact Except.noConfusion h
      | exact extGood_ok_trans h (ExtGood.of_eq (by simp [apply_ite Machine.positions]))

set_option maxHeartbeats 1000000 in
theorem extendsGood_setDistanceMode : extendsGood setDistanceMode := by
  intro m b m' b' h
  unfold setDistanceMode at h
  repeat' split at h
  all_goals
    first
      | exact Except.noConfusion h
      | exact extGood_ok_trans h (ExtGood.of_eq (by simp [apply_ite Machine.positions]))

set_option maxHeartbeats 1000000 in
theorem extendsGood_setArcDistanceMode : extendsGood setArcDistanceMode := by
  intro m b m' b' h
  unfold setArcDistanceMode at h
  repeat' split at h
  all_goals
    first
      | exact Except.noConfusion h
      | exact extGood_ok_trans h (ExtGood.of_eq (by simp [apply_ite Machine.positions]))

set_option maxHeartbeats 1000000 in
theorem extendsGood_setMoveMode : extendsGood setMoveMode := by
  intro m b m' b' h
  unfold setMoveMode at h
  repeat' split at h
  all_goals
    first
      | exact Except.noConfusion h
      | exact extGood_ok_trans h (ExtGood.of_eq (by simp [apply_ite Machine.positions]))

set_option maxHeartbeats 1000000 in
theorem extendsGood_setStop : extendsGood setStop := by
  intro m b m' b' h
  unfold setStop at h
  repeat' split at h
  all_goals
    first
      | exact Except.noConfusion h
      | exact extGood_ok_trans h (ExtGood.of_eq (by simp [apply_ite Machine.positions]))

set_option maxHeartbeats 1000000 in
theorem extendsGood_postCheck : extendsGood postCheck := by
  intro m b m' b' h
  unfold postCheck at h
  repeat' split at h
  all_goals
    first
      | exact Except.noConfusion h
      | exact extGood_ok_trans h (ExtGood.of_eq (by simp [apply_ite Machine.positions]))

theorem planeMove_ext (pid : ℤ) (mm : Machine) (x y z : ℚ) :
    ∃ q : Position, q.state = mm.state ∧
      planeMove pid mm x y z = { mm with positions := mm.positions ++ [q] } := by
  by_cases h1 : pid = PlaneXZ
  · refine ⟨⟨mm.state, y, z, x⟩, rfl, ?_⟩
    unfold planeMove
    rw [if_pos h1]
    rfl
  · by_cases h2 : pid = PlaneYZ
    · refine ⟨⟨mm.state, z, x, y⟩, rfl, ?_⟩
      unfold planeMove
      rw [if_neg h1, if_pos h2]
      rfl
    · refine ⟨⟨mm.state, x, y, z⟩, rfl, ?_⟩
      unfold planeMove
      rw [if_neg h1, if_neg h2]
      rfl

theorem foldl_move_ext {f : Machine → ℕ → Machine}
    (hf : ∀ mm i, ∃ q : Position, q.state = mm.state ∧
        f mm i = { mm with positions := mm.positions ++ [q] }) :
    ∀ (l : List ℕ) (m : Machine),
      ∃ ext, (l.foldl f m) = { m with positions := m.positions ++ ext } ∧
        ∀ p ∈ ext, p.state = m.state := by
  intro l
  induction l with
  | nil =>
    intro m
    refine ⟨[], ?_, by simp⟩
    simp only [List.foldl_nil, List.append_nil]
  | cons i rest ih =>
    intro m
    obtain ⟨q, hq, hfi⟩ := hf m i
    obtain ⟨ext, hext, hall⟩ := ih (f m i)
    refine ⟨q :: ext, ?_, ?_⟩
    · rw [List.foldl_cons, hext, hfi]
      simp
    · intro p hp
      rcases List.mem_cons.mp hp with hh | hh
      · subst hh; exact hq
      · have h2 := hall p hh
        rw [hfi] at h2
        simpa using h2

theorem arc_body_full {f : Machine → ℕ → Machine} (pid : ℤ) (m : Machine)
    (l : List ℕ) (e1 e2 e3 : ℚ) (oldState : ℤ)
    (hf : ∀ mm i, ∃ q : Position, q.state = mm.state ∧
        f mm i = { mm with positions := mm.positions ++ [q] }) :
    ExtGood m
      { planeMove pid
          (l.foldl f { m with state := { m.state with moveMode := MoveModeLinear } })
          e1 e2 e3 with
        state := { (planeMove pid
          (l.foldl f { m with state := { m.state with moveMode := MoveModeLinear } })
          e1 e2 e3).state with moveMode := oldState } } ∧
      ({ planeMove pid
          (l.foldl f { m with state := { m.state with moveMode := MoveModeLinear } })
          e1 e2 e3 with
        state := { (planeMove pid
          (l.foldl f { m with state := { m.state with moveMode := MoveModeLinear } })
          e1 e2 e3).state with moveMode := oldState } }).state =
        { m.state with moveMode := oldState } := by
  obtain ⟨ext, hfold, hstates⟩ :=
    foldl_move_ext hf l { m with state := { m.state with moveMode := MoveModeLinear } }
  obtain ⟨qf, hqf, hpm⟩ :=
    planeMove_ext pid
      (l.foldl f { m with state := { m.state with moveMode := MoveModeLinear } })
      e1 e2 e3
  refine ⟨⟨ext ++ [qf], ?_, ?_⟩, ?_⟩
  · rw [hpm, hfold]
    simp [List.append_assoc]
  · intro p hp
    rcases List.mem_append.mp hp with hh | hh
    · have hps := hstates p hh
      unfold goodMode
      rw [hps]
      exact ⟨show MoveModeLinear ≠ MoveModeCWArc by decide,
        show MoveModeLinear ≠ MoveModeCCWArc by decide⟩
    · simp only [List.mem_singleton] at hh
      subst hh
      unfold goodMode
      rw [hqf, hfold]
      exact ⟨show MoveModeLinear ≠ MoveModeCWArc by decide,
        show MoveModeLinear ≠ MoveModeCCWArc by decide⟩
  · rw [hpm, hfold]

theorem arc_extGood (A : Analytic) (m : Machine) (x y z i j k P : ℚ)
    (m' : Machine) (h : m.arc A x y z i j k P = .ok m') :
    ExtGood m m' ∧ m'.state = m.state := by
  unfold Machine.arc at h
  simp only [] at h
  repeat' split at h
  all_goals try exact Except.noConfusion h
  all_goals
    simp only [Except.ok.injEq] at h
    subst h
    exact ⟨(arc_body_full _ m _ _ _ _ _
        (fun mm ii => planeMove_ext _ mm _ _ _)).1,
      ((arc_body_full _ m _ _ _ _ _
        (fun mm ii => planeMove_ext _ mm _ _ _)).2).trans rfl⟩

theorem nonModalDwell_extGood (m : Machine) (b : Block) (w : Word)
    (m' : Machine) (b' : Block) (h : nonModalDwell m b w = .ok (m', b')) :
    ExtGood m m' := by
  unfold nonModalDwell at h
  repeat' split at h
  all_goals
    first
      | exact Except.noConfusion h
      | exact extGood_ok_trans h (dwell_extGood m _)

theorem nonModalG10_extGood (m : Machine) (b : Block) (w : Word)
    (m' : Machine) (b' : Block) (h : nonModalG10 m b w = .ok (m', b')) :
    ExtGood m m' := by
  unfold nonModalG10 at h
  simp only [] at h
  repeat' split at h
  all_goals
    first
      | exact Except.noConfusion h
      | exact extGood_ok_trans h (ExtGood.of_eq (by simp [apply_ite Machine.positions]))

theorem nonModalG28_extGood (m : Machine) (b : Block) (w : Word) :
    ExtGood m (nonModalG28 m b w).1 := by
  unfold nonModalG28
  split
  all_goals
    first
      | exact extGood_update_move_restore m _
          ⟨show MoveModeRapid ≠ MoveModeCWArc by decide,
           show MoveModeRapid ≠ MoveModeCCWArc by decide⟩ _ _ _ _
      | exact extGood_update_move_move_restore m _
          ⟨show MoveModeRapid ≠ MoveModeCWArc by decide,
           show MoveModeRapid ≠ MoveModeCCWArc by decide⟩ _ _ _ _ _ _ _

theorem nonModalG30_extGood (m : Machine) (b : Block) (w : Word) :
    ExtGood m (nonModalG30 m b w).1 := by
  unfold nonModalG30
  split
  all_goals
    first
      | exact extGood_update_move_restore m _
          ⟨show MoveModeRapid ≠ MoveModeCWArc by decide,
           show MoveModeRapid ≠ MoveModeCCWArc by decide⟩ _ _ _ _
      | exact extGood_update_move_move_restore m _
          ⟨show MoveModeRapid ≠ MoveModeCWArc by decide,
           show MoveModeRapid ≠ MoveModeCCWArc by decide⟩ _ _ _ _ _ _ _

theorem nonModalG92_extGood (m : Machine) (b : Block) (w : Word)
    (m' : Machine) (b' : Block) (h : nonModalG92 m b w = .ok (m', b')) :
    ExtGood m m' := by
  unfold nonModalG92 at h
  simp only [] at h
  repeat' split at h
  all_goals
    first
      | exact Except.noConfusion h
      | exact extGood_ok_trans h (ExtGood.of_eq (by simp [apply_ite Machine.positions]))

theorem pair_ok_extGood {X : Machine × Block} {m m' : Machine} {b' : Block}
    (h : (Except.ok X : Except String (Machine × Block)) = Except.ok (m', b'))
    (hx : ExtGood m X.1) : ExtGood m m' := by
  have h1 : X.1 = m' := by rw [Except.ok.inj h]
  rwa [h1] at hx

set_option maxHeartbeats 1000000 in
theorem extendsGood_nonModals : extendsGood nonModals := by
  intro m b m' b' h
  unfold nonModals at h
  split at h
  · exact Except.noConfusion h
  · exact extGood_ok_trans h (ExtGood.rfl m)
  · simp only [ite_eq_iff] at h
    rcases h with
      ⟨-, h⟩ | ⟨-, ⟨-, h⟩ | ⟨-, ⟨-, h⟩ | ⟨-, ⟨-, h⟩ | ⟨-, ⟨-, h⟩ | ⟨-, ⟨-, h⟩ | ⟨-, ⟨-, h⟩ | ⟨-, ⟨-, h⟩ | ⟨-, ⟨-, h⟩ | ⟨-, ⟨-, h⟩ | ⟨-, ⟨-, h⟩ | ⟨-, ⟨-, h⟩ | ⟨-, h⟩⟩⟩⟩⟩⟩⟩⟩⟩⟩⟩⟩
    all_goals
      first
        | exact Except.noConfusion h
        | exact nonModalDwell_extGood m b _ m' b' h
        | exact nonModalG10_extGood m b _ m' b' h
        | exact nonModalG92_extGood m b _ m' b' h
        | exact pair_ok_extGood h (nonModalG28_extGood m b _)
        | exact pair_ok_extGood h (nonModalG30_extGood m b _)
        | exact pair_ok_extGood h (ExtGood.of_eq (by
            simp [nonModalG281, nonModalG301, nonModalG53, nonModalG921,
              nonModalG922, nonModalG923]))

set_option maxHeartbeats 1000000 in
theorem extendsGood_performMove (A : Analytic) : extendsGood (performMove A) := by
  intro m b m' b' h
  unfold performMove at h
  simp only [] at h
  repeat' split at h
  all_goals
    first
      | exact Except.noConfusion h
      | exact extGood_ok_trans h (ExtGood.of_eq (by simp [apply_ite Machine.positions]))
      | exact extGood_ok_trans h ((arc_extGood A m _ _ _ _ _ _ _ _ (by assumption)).1)
      | exact extGood_ok_trans h (move_extGood (by
          rcases ‹m.state.moveMode = MoveModeLinear ∨ m.state.moveMode = MoveModeRapid›
            with hh | hh <;> rw [hh] <;>
            exact ⟨by decide, by decide⟩) _ _ _)

set_option maxHeartbeats 1000000 in
theorem run_extGood (A : Analytic) (m : Machine) (b : Block) (m' : Machine)
    (h : m.run A b = .ok m') : ExtGood m m' := by
  unfold Machine.run at h
  split at h
  · exact ExtGood.of_eq (by rw [Except.ok.inj h])
  · obtain ⟨⟨m1, b1⟩, h1, h⟩ := except_bind_ok h
    obtain ⟨⟨m2, b2⟩, h2, h⟩ := except_bind_ok h
    obtain ⟨⟨m3, b3⟩, h3, h⟩ := except_bind_ok h
    obtain ⟨⟨m4, b4⟩, h4, h⟩ := except_bind_ok h
    obtain ⟨⟨m5, b5⟩, h5, h⟩ := except_bind_ok h
    obtain ⟨⟨m6, b6⟩, h6, h⟩ := except_bind_ok h
    obtain ⟨⟨m7, b7⟩, h7, h⟩ := except_bind_ok h
    obtain ⟨⟨m8, b8⟩, h8, h⟩ := except_bind_ok h
    obtain ⟨⟨m9, b9⟩, h9, h⟩ := except_bind_ok h
    obtain ⟨⟨m10, b10⟩, h10, h⟩ := except_bind_ok h
    obtain ⟨⟨m11, b11⟩, h11, h⟩ := except_bind_ok h
    obtain ⟨⟨m12, b12⟩, h12, h⟩ := except_bind_ok h
    obtain ⟨⟨m13, b13⟩, h13, h⟩ := except_bind_ok h
    obtain ⟨⟨m14, b14⟩, h14, h⟩ := except_bind_ok h
    obtain ⟨⟨m15, b15⟩, h15, h⟩ := except_bind_ok h
    obtain ⟨⟨m16, b16⟩, h16, h⟩ := except_bind_ok h
    obtain ⟨⟨m17, b17⟩, h17, h⟩ := except_bind_ok h
    obtain ⟨⟨m18, b18⟩, h18, h⟩ := except_bind_ok h
    obtain ⟨⟨m19, b19⟩, h19, h⟩ := except_bind_ok h
    obtain ⟨⟨m20, b20⟩, h20, h⟩ := except_bind_ok h
    obtain ⟨⟨m21, b21⟩, h21, h⟩ := except_bind_ok h
    obtain ⟨⟨m22, b22⟩, h22, h⟩ := except_bind_ok h
    refine ExtGood.trans (extendsGood_lineNumber m b m1 b1 h1) ?_
    refine ExtGood.trans (extendsGood_programName m1 b1 m2 b2 h2) ?_
    refine ExtGood.trans (extendsGood_feedRateMode m2 b2 m3 b3 h3) ?_
    refine ExtGood.trans (extendsGood_feedRate m3 b3 m4 b4 h4) ?_
    refine ExtGood.trans (extendsGood_spindleSpeed m4 b4 m5 b5 h5) ?_
    refine ExtGood.trans (extendsGood_nextTool m5 b5 m6 b6 h6) ?_
    refine ExtGood.trans (extendsGood_toolChange m6 b6 m7 b7 h7) ?_
    refine ExtGood.trans (extendsGood_setSpindle m7 b7 m8 b8 h8) ?_
    refine ExtGood.trans (extendsGood_setCoolant m8 b8 m9 b9 h9) ?_
    refine ExtGood.trans (extendsGood_setPolarMode m9 b9 m10 b10 h10) ?_
    refine ExtGood.trans (extendsGood_setPlane m10 b10 m11 b11 h11) ?_
    refine ExtGood.trans (extendsGood_setUnits m11 b11 m12 b12 h12) ?_
    refine ExtGood.trans (extendsGood_setCutterCompensation m12 b12 m13 b13 h13) ?_
    refine ExtGood.trans (extendsGood_setToolLength m13 b13 m14 b14 h14) ?_
    refine ExtGood.trans (extendsGood_setCoordinateSystem m14 b14 m15 b15 h15) ?_
    refine ExtGood.trans (extendsGood_setDistanceMode m15 b15 m16 b16 h16) ?_
    refine ExtGood.trans (extendsGood_setArcDistanceMode m16 b16 m17 b17 h17) ?_
    refine ExtGood.trans (extendsGood_nonModals m17 b17 m18 b18 h18) ?_
    refine ExtGood.trans (extendsGood_setMoveMode m18 b18 m19 b19 h19) ?_
    refine ExtGood.trans (extendsGood_performMove A m19 b19 m20 b20 h20) ?_
    refine ExtGood.trans (extendsGood_setStop m20 b20 m21 b21 h21) ?_
    refine ExtGood.trans (extendsGood_postCheck m21 b21 m22 b22 h22) ?_
    have hfin : temporaryReset m22 = m' := Except.ok.inj h
    exact ExtGood.of_eq (by rw [← hfin]; try rfl)

theorem finalize_extGood (m : Machine) : ExtGood m m.finalize := by
  unfold Machine.finalize
  split
  · exact ExtGood.trans (ExtGood.of_eq rfl)
      (move_extGood ⟨show MoveModeNone ≠ MoveModeCWArc by decide,
        show MoveModeNone ≠ MoveModeCCWArc by decide⟩ _ _ _)
  · exact ExtGood.rfl m

theorem processBlocks_extGood (A : Analytic) : ∀ (bs : List Block) (m : Machine)
    (idx : ℕ) (m' : Machine), processBlocks A m bs idx = .ok m' → ExtGood m m' := by
  intro bs
  induction bs with
  | nil =>
    intro m idx m' h
    exact ExtGood.of_eq (by rw [Except.ok.inj h])
  | cons b rest ih =>
    intro m idx m' h
    unfold processBlocks at h
    split at h
    · exact ih m (idx + 1) m' h
    · split at h
      · exact Except.noConfusion h
      · rename_i m1 heq
        exact ExtGood.trans (run_extGood A m b m1 heq) (ih m1 (idx + 1) m' h)

theorem process_extGood (A : Analytic) (m : Machine) (doc : Document)
    (m' : Machine) (h : m.process A doc = .ok m') : ExtGood m m' := by
  unfold Machine.process at h
  split at h
  · exact Except.noConfusion h
  · rename_i m1 heq
    refine ExtGood.trans (processBlocks_extGood A doc.blocks m 0 m1 heq) ?_
    refine ExtGood.trans (finalize_extGood m1) ?_
    exact ExtGood.of_eq (by rw [Except.ok.inj h])

/-- C2: every document accepted by process from the freshly initialized
machine yields a trace in which no position stores CWArc or CCWArc as its
move mode (arcs are tessellated into linear segments), and the arc routine
restores the machine state, in particular the prior move mode, after the
arc has been emitted. -/
theorem c2_trace_has_no_arc_move_modes (A : Analytic) (doc : Document)
    (m' : Machine) (h : Machine.zero.initVM.process A doc = .ok m') :
    (∀ p ∈ m'.positions, p.state.moveMode ≠ MoveModeCWArc ∧
        p.state.moveMode ≠ MoveModeCCWArc) ∧
    (∀ (ma mb : Machine) (x y z i j k P : ℚ),
        ma.arc A x y z i j k P = .ok mb → mb.state = ma.state) := by
  constructor
  · intro p hp
    obtain ⟨ext, hpos, hgood⟩ := process_extGood A Machine.zero.initVM doc m' h
    rw [hpos] at hp
    rcases List.mem_append.mp hp with hin | hin
    · have : p = Position.zero := by
        have : Machine.zero.initVM.positions = [Position.zero] := by decide
        rw [this] at hin
        exact List.mem_singleton.mp hin
      rw [this]
      exact ⟨by decide, by decide⟩
    · exact hgood p hin
  · intro ma mb x y z i j k P harc
    exact (arc_extGood A ma x y z i j k P mb harc).2

theorem c2_witness :
    Position.zero.state.moveMode ≠ MoveModeCWArc ∧
    Position.zero.state.moveMode ≠ MoveModeCCWArc :=
  (c2_trace_has_no_arc_move_modes A0 c1Doc processedC1 (by decide)).1
    Position.zero (by decide)

/-- C9 (amended): after Init the trace is the single origin position, and
after an accepted Process run the trace is still non-empty with the origin
at its head; the claim's extension to every optimizer pass fails (see the
counterexample on OptBogusMoves). -/
theorem c9_origin_after_init_and_process (A : Analytic) (doc : Document)
    (m' : Machine) (h : Machine.zero.initVM.process A doc = .ok m') :
    Machine.zero.initVM.positions.head? = some Position.zero ∧
    m'.positions.head? = some Position.zero ∧ m'.positions ≠ [] := by
  obtain ⟨ext, hpos, -⟩ := process_extGood A Machine.zero.initVM doc m' h
  have hinit : Machine.zero.initVM.positions = [Position.zero] := by decide
  rw [hinit] at hpos
  refine ⟨by rw [hinit]; rfl, ?_, ?_⟩
  · rw [hpos]; rfl
  · rw [hpos]; exact List.cons_ne_nil _ _

theorem c9_witness :
    Machine.zero.initVM.positions.head? = some Position.zero ∧
    processedC1.positions.head? = some Position.zero ∧
    processedC1.positions ≠ [] :=
  c9_origin_after_init_and_process A0 c1Doc processedC1 (by decide)

/-- C9 counterexample: OptBogusMoves drops the lone origin entry of a fresh
trace, so the origin-headed-trace invariant does not survive every optimizer
pass. -/
theorem c9_bogus_moves_drops_origin :
    (optBogusMoves A0 Machine.zero.initVM).positions = [] ∧
    Machine.zero.initVM.positions = [Position.zero] := by decide

theorem pendingLineLens_append (a b : List Entry) :
    pendingLineLens (a ++ b) = pendingLineLens a ++ pendingLineLens b := by
  unfold pendingLineLens
  exact List.filterMap_append a b _

theorem sum_take_le (l : List ℕ) (k : ℕ) : (l.take k).sum ≤ l.sum := by
  conv_rhs => rw [← List.take_append_drop k l]
  rw [List.sum_append]
  exact Nat.le_add_right _ _

theorem sum_drop_take_le : ∀ (l : List ℕ) (w a : ℕ),
    ((l.take w).drop a).sum ≤ (l.drop a).sum
  | l, w, 0 => by simpa using sum_take_le l w
  | [], _, _ + 1 => by simp
  | _ :: _, 0, _ + 1 => by simp
  | x :: xs, w + 1, a + 1 => by simpa using sum_drop_take_le xs w a

theorem handleRes_inv (s : SendState) (hs : sendInv s) :
    sendInv (handleRes s).1 := by
  obtain ⟨h1, h2, h3, h4⟩ := hs
  unfold handleRes
  split
  · exact ⟨h1, h2, h3, h4⟩
  · rename_i rest heq
    refine ⟨?_, ?_, h3, h4⟩
    · simpa [heq, pendingLineLens] using h1
    · simpa [heq, pendingLineLens] using h2
  · rename_i l rest heq
    split
    · exact ⟨h1, h2, h3, h4⟩
    · rename_i r rs heqr
      simp only []
      have hpend : pendingLineLens s.list = l.length :: pendingLineLens rest := by
        rw [heq]; simp [pendingLineLens]
      have e1 : s.lineLens.drop s.ackCount = l.length :: pendingLineLens rest := by
        rw [← h2, hpend]
      split
      all_goals
        first
          | exact ⟨h1, h2, h3, h4⟩
          | refine ⟨?_, ?_, ?_, h4⟩
      · show s.length - (l.length : ℤ) = ((pendingLineLens rest).sum : ℤ)
        rw [h1, hpend]
        push_cast [List.sum_cons]
        ring
      · show pendingLineLens rest = s.lineLens.drop (s.ackCount + 1)
        calc pendingLineLens rest
            = (s.lineLens.drop s.ackCount).drop 1 := by rw [e1]; rfl
          _ = s.lineLens.drop (s.ackCount + 1) := by
              rw [List.drop_drop]
      · show s.ackCount + 1 ≤ s.lineLens.length
        have hlen := congrArg List.length e1
        simp [List.length_drop] at hlen
        omega

theorem drain_inv : ∀ (fuel : ℕ) (s : SendState), sendInv s →
    sendInv (drain fuel s).1 ∧
      ((drain fuel s).2 = none → (drain fuel s).1.length ≤ 127) := by
  intro fuel
  induction fuel with
  | zero =>
    intro s hs
    exact ⟨hs, fun h => by simp [drain] at h⟩
  | succ fuel ih =>
    intro s hs
    unfold drain
    split
    · split
      · exact ⟨hs, fun h => by simp at h⟩
      · split
        · rename_i s' heq
          have h' := handleRes_inv s hs
          rw [heq] at h'
          exact ih s' h'
        · rename_i hlist rv hno
          exact ⟨handleRes_inv s hs,
            fun hh => (hno (handleRes s).1 (Prod.ext rfl hh)).elim⟩
    · rename_i hc
      refine ⟨hs, fun _ => ?_⟩
      show s.length ≤ 127
      omega

theorem writeFinish_inv (s : SendState) (hinv : sendInv s)
    (hlen : s.length ≤ 127) : sendInv (writeFinish s).1 := by
  obtain ⟨h1, h2, h3, h4⟩ := hinv
  unfold writeFinish
  simp only []
  refine ⟨h1, h2, h3, ?_⟩
  show max s.maxOut (outstanding { s with writtenCount := s.writtenCount + 1 }) ≤ 127
  refine max_le h4 ?_
  show ((((s.lineLens.take (s.writtenCount + 1)).drop s.ackCount).sum : ℕ) : ℤ) ≤ 127
  calc ((((s.lineLens.take (s.writtenCount + 1)).drop s.ackCount).sum : ℕ) : ℤ)
      ≤ (((s.lineLens.drop s.ackCount).sum : ℕ) : ℤ) := by
        exact_mod_cast sum_drop_take_le s.lineLens (s.writtenCount + 1) s.ackCount
    _ = ((pendingLineLens s.list).sum : ℤ) := by rw [h2]
    _ = s.length := h1.symm
    _ ≤ 127 := hlen

theorem writeLine_inv (s : SendState) (str : String) (hs : sendInv s) :
    sendInv (writeLine s str).1 := by
  obtain ⟨h1, h2, h3, h4⟩ := hs
  have hinv1 : sendInv { s with
      length := s.length + ((str ++ "\n").length : ℤ),
      list := s.list ++ [Entry.line (str ++ "\n")],
      lineLens := s.lineLens ++ [(str ++ "\n").length] } := by
    refine ⟨?_, ?_, ?_, h4⟩
    · show s.length + ((str ++ "\n").length : ℤ) =
        ((pendingLineLens (s.list ++ [Entry.line (str ++ "\n")])).sum : ℤ)
      rw [pendingLineLens_append, h1]
      push_cast [List.sum_append, pendingLineLens, List.filterMap]
      simp
    · show pendingLineLens (s.list ++ [Entry.line (str ++ "\n")]) =
        (s.lineLens ++ [(str ++ "\n").length]).drop s.ackCount
      rw [pendingLineLens_append, List.drop_append_of_le_length h3, h2]
      rfl
    · show s.ackCount ≤ (s.lineLens ++ [(str ++ "\n").length]).length
      simp only [List.length_append, List.length_singleton]
      omega
  unfold writeLine
  simp only []
  split
  · rename_i s2 e heq
    have h' := (drain_inv ((s.list ++ [Entry.line (str ++ "\n")]).length +
      s.responses.length + 1) _ hinv1).1
    rw [heq] at h'
    exact h'
  · rename_i s2 heq
    have h' := drain_inv ((s.list ++ [Entry.line (str ++ "\n")]).length +
      s.responses.length + 1) _ hinv1
    rw [heq] at h'
    exact writeFinish_inv s2 h'.1 (h'.2 rfl)

theorem writeGroup_inv : ∀ (ls : List String) (s : SendState), sendInv s →
    sendInv (writeGroup s ls).1
  | [], _, hs => hs
  | l :: ls, s, hs => by
    unfold writeGroup
    split
    · rename_i s2 e heq
      have h' := writeLine_inv s l hs
      rw [heq] at h'
      exact h'
    · rename_i s2 heq
      have h' := writeLine_inv s l hs
      rw [heq] at h'
      exact writeGroup_inv ls s2 h'

theorem checkpoint_inv (s : SendState) (hs : sendInv s) :
    sendInv { s with list := s.list ++ [Entry.checkpoint] } := by
  obtain ⟨h1, h2, h3, h4⟩ := hs
  refine ⟨?_, ?_, h3, h4⟩
  · show s.length = ((pendingLineLens (s.list ++ [Entry.checkpoint])).sum : ℤ)
    rw [pendingLineLens_append]
    simp [pendingLineLens, List.filterMap, h1]
  · show pendingLineLens (s.list ++ [Entry.checkpoint]) =
      s.lineLens.drop s.ackCount
    rw [pendingLineLens_append, ← h2]
    show pendingLineLens s.list ++ [] = pendingLineLens s.list
    exact List.append_nil _

theorem sendLoop_inv : ∀ (gs : List (List String)) (s : SendState), sendInv s →
    sendInv (sendLoop s gs).1
  | [], _, hs => hs
  | g :: gs, s, hs => by
    unfold sendLoop
    split
    · rename_i s2 e heq
      have h' := writeGroup_inv g s hs
      rw [heq] at h'
      exact h'
    · rename_i s2 heq
      have h' := writeGroup_inv g s hs
      rw [heq] at h'
      exact sendLoop_inv gs _ (checkpoint_inv s2 h')

theorem finishLoop_inv : ∀ (fuel n : ℕ) (s : SendState), sendInv s →
    sendInv (finishLoop fuel n s).1 := by
  intro fuel
  induction fuel with
  | zero => intro n s hs; exact hs
  | succ fuel ih =>
    intro n s hs
    unfold finishLoop
    split
    · split
      · exact hs
      · split
        · rename_i s' heq
          have h' := handleRes_inv s hs
          rw [heq] at h'
          exact ih n s' h'
        · rename_i hlist rv hno
          exact handleRes_inv s hs
    · exact hs

set_option maxRecDepth 100000 in
/-- C3: the Send loop never has more than 127 bytes of written but
unacknowledged lines outstanding: the instrumented running maximum of the
outstanding byte total stays within the 127-byte window for every sequence
of line groups and controller responses, and the spec's example of 200
ten-byte lines against a compliant controller runs to completion. -/
theorem c3_send_window_never_exceeded (lineGroups : List (List String))
    (responses : List String) :
    (send lineGroups responses).1.maxOut ≤ 127 ∧
    (send (List.replicate 200 ["123456789"])
        (List.replicate 200 "ok\r\n")).2 = none := by
  constructor
  · have h0 : sendInv ({ responses := responses } : SendState) := by
      refine ⟨?_, ?_, ?_, ?_⟩
      · show (0 : ℤ) = ((pendingLineLens []).sum : ℤ)
        rfl
      · show pendingLineLens [] = List.drop 0 []
        rfl
      · show 0 ≤ ([] : List ℕ).length
        exact Nat.le_refl 0
      · show (0 : ℤ) ≤ 127
        norm_num
    unfold send
    simp only []
    split
    · rename_i s2 e heq
      have h' := sendLoop_inv lineGroups _ h0
      rw [heq] at h'
      exact h'.2.2.2
    · rename_i s2 heq
      have h' := sendLoop_inv lineGroups _ h0
      rw [heq] at h'
      exact (finishLoop_inv _ lineGroups.length s2 h').2.2.2
  · decide
